import Mathlib

/-!
Verification of the news-collector intake tool: a shallow embedding of the
tag parsing, session bookkeeping, rate limiting and item-store operations
of `app.py` / `db.py` / `llm.py`, together with theorems about the
testable properties of the system.

Texts are modelled as `List Char`.  The regular expressions used by the
source are all of the shape `LIT(.*?)LIT` (case-insensitive, DOTALL) or a
fixed dash/comma pattern; they are embedded as explicit leftmost-match
scanners over character lists, with `re.sub` embedded as the usual
"replace every leftmost non-overlapping match, continue after the match"
loop.
-/

/-- Texts (Python `str`) are lists of characters. -/
abbrev Text := List Char

/-- ASCII whitespace, the class accepted by Python's `str.strip` and by the
regex class matched here (all the whitespace that occurs in this system is
ASCII). -/
def pyIsSpace (c : Char) : Bool :=
  c = ' ' || c = '\t' || c = '\n' || c = '\r' || c = '\x0b' || c = '\x0c'

/-- Drop trailing characters satisfying `p` (helper for `pyStrip`). -/
def dropEndWhile (p : Char → Bool) (s : Text) : Text :=
  ((s.reverse).dropWhile p).reverse

/-- Python `str.strip()`: remove leading and trailing whitespace. -/
def pyStrip (s : Text) : Text :=
  dropEndWhile pyIsSpace (s.dropWhile pyIsSpace)

/-- Case-insensitive character comparison, as used by `re.IGNORECASE` on
the ASCII literals of the source's patterns. -/
def ciEq (a b : Char) : Bool := a.toLower == b.toLower

/-- Case-sensitive character comparison (for plain `in` substring tests). -/
def csEq (a b : Char) : Bool := a == b

/-- Does the literal `lit` match at the head of `t` (charwise via `eqv`)? -/
def matchLit (eqv : Char → Char → Bool) : List Char → Text → Bool
  | [], _ => true
  | _ :: _, [] => false
  | p :: ps, c :: cs => eqv p c && matchLit eqv ps cs

/-- Split `t` at the leftmost occurrence of the literal `lit`: returns the
text before the occurrence and the text after it, or `none` when `lit`
does not occur.  This is exactly how `re.search` locates the literal
prefix of a `LIT(.*?)LIT` pattern. -/
def splitAtFirst (eqv : Char → Char → Bool) (lit : List Char) : Text → Option (Text × Text)
  | [] => if matchLit eqv lit [] then some ([], []) else none
  | c :: cs =>
    if matchLit eqv lit (c :: cs) then some ([], (c :: cs).drop lit.length)
    else
      match splitAtFirst eqv lit cs with
      | none => none
      | some (p, q) => some (c :: p, q)

/-- Does `lit` occur in `t` (case-insensitively)? -/
def containsLit (lit : List Char) (t : Text) : Bool :=
  (splitAtFirst ciEq lit t).isSome

/-- Leftmost match of the pattern `op(.*?)cl` (DOTALL, case-insensitive):
the text before the match, the non-greedy group, and the text after the
match.  `re.search` semantics: the match starts at the leftmost occurrence
of `op` that is followed by an occurrence of `cl`, and the group runs to
the first such `cl`. -/
def findBlock (op cl : List Char) (t : Text) : Option (Text × Text × Text) :=
  match splitAtFirst ciEq op t with
  | none => none
  | some (pre, rest) =>
    match splitAtFirst ciEq cl rest with
    | none => none
    | some (mid, post) => some (pre, mid, post)

/-- One fuel-indexed pass of `pattern.sub("", text)` for `op(.*?)cl`:
remove every leftmost non-overlapping match, continuing after each match.
The fuel only serves termination; `t.length` is always enough. -/
def stripBlocksFuel (op cl : List Char) : Nat → Text → Text
  | 0, t => t
  | fuel + 1, t =>
    match findBlock op cl t with
    | none => t
    | some (pre, _, post) => pre ++ stripBlocksFuel op cl fuel post

/-- `re.sub(pattern, "", text)` for the pattern `op(.*?)cl`. -/
def stripBlocks (op cl : List Char) (t : Text) : Text :=
  stripBlocksFuel op cl t.length t

/-- Try to match `\s*DASH\s*` at the head of the text (greedy whitespace,
then the dash character, then greedy whitespace); on success return the
text after the match. -/
def tryDashAt (dash : Char) (t : Text) : Option Text :=
  match t.dropWhile pyIsSpace with
  | [] => none
  | c :: cs => if c = dash then some (cs.dropWhile pyIsSpace) else none

/-- Leftmost match of `\s*DASH\s*`: text before the match and after it. -/
def findDashMatch (dash : Char) : Text → Option (Text × Text)
  | [] => none
  | c :: cs =>
    match tryDashAt dash (c :: cs) with
    | some post => some ([], post)
    | none =>
      match findDashMatch dash cs with
      | none => none
      | some (p, q) => some (c :: p, q)

/-- Fuel-indexed `re.sub(r'\s*DASH\s*', ', ', text)`. -/
def subDashFuel (dash : Char) : Nat → Text → Text
  | 0, t => t
  | fuel + 1, t =>
    match findDashMatch dash t with
    | none => t
    | some (pre, post) => pre ++ [',', ' '] ++ subDashFuel dash fuel post

/-- `re.sub(r'\s*DASH\s*', ', ', text)`. -/
def subDash (dash : Char) (t : Text) : Text :=
  subDashFuel dash t.length t

/-- Try to match `,\s*,` at the head of the text; on success return the
text after the match (after the second comma). -/
def tryCommaAt (t : Text) : Option Text :=
  match t with
  | ',' :: rest =>
    match rest.dropWhile pyIsSpace with
    | ',' :: after => some after
    | _ => none
  | _ => none

/-- Leftmost match of `,\s*,`. -/
def findCommaMatch : Text → Option (Text × Text)
  | [] => none
  | c :: cs =>
    match tryCommaAt (c :: cs) with
    | some post => some ([], post)
    | none =>
      match findCommaMatch cs with
      | none => none
      | some (p, q) => some (c :: p, q)

/-- Fuel-indexed `re.sub(r',\s*,', ',', text)`. -/
def subCommaFuel : Nat → Text → Text
  | 0, t => t
  | fuel + 1, t =>
    match findCommaMatch t with
    | none => t
    | some (pre, post) => pre ++ [','] ++ subCommaFuel fuel post

/-- `re.sub(r',\s*,', ',', text)`. -/
def subComma (t : Text) : Text :=
  subCommaFuel t.length t

/-- The em dash and the en dash. -/
def emDash : Char := '—'

/-- The en dash character. -/
def enDash : Char := '–'

/-- `_strip_dashes` from `app.py`: replace (possibly space-surrounded) em
dashes and en dashes by a comma-space, then collapse resulting doubled
commas. -/
def strip_dashes (text : Text) : Text :=
  subComma (subDash enDash (subDash emDash text))

/-- Accumulating digit scanner for the Python `int()` model: digits with
single interior underscores (PEP 515). -/
def pyDigitsGo (acc : Nat) : Text → Option Nat
  | [] => some acc
  | '_' :: c :: cs =>
    if c.isDigit then pyDigitsGo (acc * 10 + (c.toNat - 48)) cs else none
  | ['_'] => none
  | c :: cs =>
    if c.isDigit then pyDigitsGo (acc * 10 + (c.toNat - 48)) cs else none

/-- Parse an unsigned decimal numeral the way Python `int()` does. -/
def pyDigits : Text → Option Nat
  | [] => none
  | c :: cs => if c.isDigit then pyDigitsGo (c.toNat - 48) cs else none

/-- Python `int(s)` for a string argument: optional surrounding
whitespace, optional sign, then a decimal numeral; `none` models the
`ValueError` raised on anything else. -/
def pyInt (s : Text) : Option Int :=
  match pyStrip s with
  | '+' :: rest => (pyDigits rest).map (fun n => (n : Int))
  | '-' :: rest => (pyDigits rest).map (fun n => -(n : Int))
  | t => (pyDigits t).map (fun n => (n : Int))

/-- Decimal numeral of a natural number (used by the f-strings of the
feed-context builder). -/
def natToChars (n : Nat) : Text := Nat.toDigits 10 n

/-- Lexicographic (byte-wise) strict order on texts, modelling SQLite's
BINARY collation used by `ORDER BY created_at`. -/
def textLt : Text → Text → Bool
  | [], [] => false
  | [], _ :: _ => true
  | _ :: _, [] => false
  | a :: as, b :: bs => if a < b then true else if b < a then false else textLt as bs

/-- A row of the `news_items` table (`db.py`).  `created_at` is the
ISO-8601 timestamp SQLite fills in on insert; it is threaded through the
embedding as an explicit parameter. -/
structure NewsItem where
  id : Nat
  submitter_name : Text
  url : Text
  reason : Text
  agreed_text : Text
  created_at : Text
  done : Bool
deriving Repr, DecidableEq

/-- The SQLite store: the rows in insertion (rowid) order, and the next
AUTOINCREMENT id. -/
structure Store where
  items : List NewsItem
  nextId : Nat
deriving Repr, DecidableEq

/-- The error raised by `db.py` when `update_news_item` calls
`dict(row)` on the `None` returned by `fetchone()` for a missing id:
an uncaught Python `TypeError`, not a classified not-found result. -/
inductive DbError where
  | typeError
deriving Repr, DecidableEq

/-- `db.save_news_item`: strip the four fields, insert a new row (fresh
id, `created_at` from the clock, `done = 0`), and return the full row. -/
def save_news_item (st : Store) (now : Text)
    (submitter_name url reason agreed_text : Text) : NewsItem × Store :=
  let item : NewsItem :=
    { id := st.nextId
      submitter_name := pyStrip submitter_name
      url := pyStrip url
      reason := pyStrip reason
      agreed_text := pyStrip agreed_text
      created_at := now
      done := false }
  (item, { items := st.items ++ [item], nextId := st.nextId + 1 })

/-- `db.update_news_item`: `UPDATE ... WHERE id = ?` (rewrites every row
with that id, stripping the fields), then `SELECT` the row back.  When no
row has that id the `SELECT` yields nothing and `dict(None)` raises — the
`.error .typeError` case. -/
def update_news_item (st : Store) (item_id : Int)
    (submitter_name url reason agreed_text : Text) : Except DbError (NewsItem × Store) :=
  let updated := st.items.map (fun i =>
    if (i.id : Int) = item_id then
      { i with
        submitter_name := pyStrip submitter_name
        url := pyStrip url
        reason := pyStrip reason
        agreed_text := pyStrip agreed_text }
    else i)
  match updated.find? (fun i => (i.id : Int) == item_id) with
  | none => .error .typeError
  | some row => .ok (row, { st with items := updated })

/-- Stable insertion (descending by `created_at`) for `ORDER BY
created_at DESC`. -/
def insertByCreatedDesc (x : NewsItem) : List NewsItem → List NewsItem
  | [] => [x]
  | y :: ys =>
    if textLt x.created_at y.created_at then y :: insertByCreatedDesc x ys
    else x :: y :: ys

/-- `db.get_feed`: the most recent rows, newest first. -/
def get_feed (st : Store) (limit : Nat) (include_done : Bool) : List NewsItem :=
  let rows := if include_done then st.items else st.items.filter (fun i => !i.done)
  (rows.foldr insertByCreatedDesc []).take limit

/-- A chat message: a `{"role": ..., "content": ...}` dict. -/
structure Msg where
  role : Text
  content : Text
deriving Repr, DecidableEq

/-- Session ceiling (`MAX_SESSIONS` in `app.py`). -/
def MAX_SESSIONS : Nat := 500

/-- History cap (`MAX_HISTORY` in `app.py`). -/
def MAX_HISTORY : Nat := 60

/-- Rate ceiling (`_RL_MAX` in `app.py`). -/
def RL_MAX : Nat := 20

/-- Rate window length in seconds (`_RL_WINDOW` in `app.py`).  The
monotonic clock is modelled by the integers: only ordering and
subtraction of time points matter here. -/
def RL_WINDOW : Int := 60

/-- Opaque identifiers (UUID session ids, client IP strings) are modelled
by naturals. -/
abbrev SessionId := Nat

/-- Lookup in an insertion-ordered Python dict, modelled as an
association list. -/
def dictGet (k : Nat) (m : List (Nat × α)) : Option α :=
  (m.find? (fun p => p.1 == k)).map (fun p => p.2)

/-- Python dict assignment `m[k] = v`: replace in place when the key is
present (keeping its position), append otherwise. -/
def dictSet (k : Nat) (v : α) : List (Nat × α) → List (Nat × α)
  | [] => [(k, v)]
  | (k', v') :: rest => if k' == k then (k, v) :: rest else (k', v') :: dictSet k v rest

/-- Python `k in m`. -/
def dictContains (k : Nat) (m : List (Nat × α)) : Bool :=
  (dictGet k m).isSome

/-- The in-memory session store `sessions` of `app.py`. -/
abbrev SessionsMap := List (SessionId × List Msg)

/-- `_get_or_create_session`: return the history for the id, creating an
empty one (after evicting the oldest tenth of the dict when the ceiling
is reached) when the id is unknown. -/
def _get_or_create_session (m : SessionsMap) (sid : SessionId) : List Msg × SessionsMap :=
  if dictContains sid m then ((dictGet sid m).getD [], m)
  else
    let m' := if MAX_SESSIONS ≤ m.length then m.drop (MAX_SESSIONS / 10) else m
    ([], m' ++ [(sid, [])])

/-- `_trim_history`: keep the first message plus the most recent tail
once the cap is exceeded. -/
def _trim_history (history : List Msg) : List Msg :=
  if MAX_HISTORY < history.length then
    history.take 1 ++ history.drop (history.length - (MAX_HISTORY - 1))
  else history

/-- The fixed greeting literal of `/api/new-session`. -/
def greetingText : Text :=
  ("Welcome to the newsletter agent! I\x27m here to help you add your news item. "
   ++ "If you have no idea how this works, let me know and I\x27ll explain. "
   ++ "Or, if you do know how it works, just tell me your name and we\x27ll get going.").data

/-- `new_session` (`GET /api/new-session`): store a fresh session seeded
with the greeting.  Note: no eviction happens on this path. -/
def new_session (sid : SessionId) (m : SessionsMap) : SessionsMap :=
  dictSet sid [{ role := "assistant".data, content := greetingText }] m

/-- The keyword vocabulary that triggers feed injection. -/
def FEED_KEYWORDS : List Text :=
  ["feed".data, "recent".data, "latest".data, "what\x27s been added".data,
   "what has been added".data, "show me".data, "show items".data, "see items".data,
   "submitted".data, "in the pipeline".data, "so far".data, "what\x27s there".data,
   "what is there".data, "list".data, "entries".data]

/-- Case-sensitive substring test (Python `kw in lower`). -/
def containsSub (needle hay : Text) : Bool :=
  (splitAtFirst csEq needle hay).isSome

/-- `_wants_feed`: keyword match against the lower-cased message. -/
def _wants_feed (message : Text) : Bool :=
  let lower := message.map Char.toLower
  FEED_KEYWORDS.any (fun kw => containsSub kw lower)

/-- `_build_feed_context` with its default limit of 15 items. -/
def _build_feed_context (st : Store) : Text :=
  let items := get_feed st 15 true
  if items.isEmpty then "FEED DATA: No items have been saved yet.".data
  else
    let header := "FEED DATA — ".data ++ natToChars items.length ++ " most recent item(s):".data
    let lines := header :: (items.enumFrom 1).map (fun p =>
      "\n[".data ++ natToChars p.1 ++ "] Added by ".data ++ p.2.submitter_name
        ++ " on ".data ++ p.2.created_at.take 10
        ++ "\n    URL: ".data ++ p.2.url
        ++ "\n    Blurb: ".data ++ p.2.agreed_text)
    List.intercalate "\n".data lines

/-- The per-ip rate book-keeping `_rate_limit` of `app.py`. -/
abbrev RateMap := List (Nat × (Nat × Int))

/-- `_check_rate_limit`: fixed-window counter per client ip.  Returns the
verdict together with the updated map. -/
def _check_rate_limit (m : RateMap) (ip : Nat) (now : Int) : Bool × RateMap :=
  match dictGet ip m with
  | none => (true, dictSet ip (1, now) m)
  | some (count, start) =>
    if RL_WINDOW < now - start then (true, dictSet ip (1, now) m)
    else if RL_MAX ≤ count then (false, m)
    else (true, dictSet ip (count + 1, start) m)

/-- The block-tag literals of the two extraction variants. -/
def openSave : Text := "<SAVE_ITEM>".data

/-- Closing delimiter of the save block. -/
def closeSave : Text := "</SAVE_ITEM>".data

/-- Opening delimiter of the update block. -/
def openUpdate : Text := "<UPDATE_ITEM>".data

/-- Closing delimiter of the update block. -/
def closeUpdate : Text := "</UPDATE_ITEM>".data

/-- The opening tag `<{tag}>` of a sub-field pattern. -/
def fieldOpen (tag : String) : Text := ('<' :: tag.data) ++ ['>']

/-- The closing tag `</{tag}>` of a sub-field pattern. -/
def fieldClose (tag : String) : Text := ('<' :: '/' :: tag.data) ++ ['>']

/-- The inner `extract` of the tag parsers: first `<{tag}>...</{tag}>`
match inside the block, stripped; the empty text when absent. -/
def extractField (tag : String) (block : Text) : Text :=
  match findBlock (fieldOpen tag) (fieldClose tag) block with
  | none => []
  | some (_, mid, _) => pyStrip mid

/-- `_parse_save_tag`: find the first save block, extract the four
fields, insert when all are non-empty, and return the text with every
save-block match removed (then stripped) together with the saved row. -/
def _parse_save_tag (st : Store) (now : Text) (response_text : Text) :
    (Text × Option NewsItem) × Store :=
  match findBlock openSave closeSave response_text with
  | none => ((response_text, none), st)
  | some (_, block, _) =>
    let name := extractField "name" block
    let url := extractField "url" block
    let reason := extractField "reason" block
    let agreed_text := extractField "agreed_text" block
    if name.isEmpty || url.isEmpty || reason.isEmpty || agreed_text.isEmpty then
      ((pyStrip (stripBlocks openSave closeSave response_text), none), st)
    else
      let (saved, st') := save_news_item st now name url reason agreed_text
      ((pyStrip (stripBlocks openSave closeSave response_text), some saved), st')

/-- `_parse_update_tag`: like the save parser with an additional numeric
id field; the store update may raise (`.error`) when the id is unknown. -/
def _parse_update_tag (st : Store) (response_text : Text) :
    Except DbError ((Text × Option NewsItem) × Store) :=
  match findBlock openUpdate closeUpdate response_text with
  | none => .ok ((response_text, none), st)
  | some (_, block, _) =>
    let item_id_str := extractField "id" block
    let name := extractField "name" block
    let url := extractField "url" block
    let reason := extractField "reason" block
    let agreed_text := extractField "agreed_text" block
    if item_id_str.isEmpty || name.isEmpty || url.isEmpty
        || reason.isEmpty || agreed_text.isEmpty then
      .ok ((pyStrip (stripBlocks openUpdate closeUpdate response_text), none), st)
    else
      match pyInt item_id_str with
      | none => .ok ((pyStrip (stripBlocks openUpdate closeUpdate response_text), none), st)
      | some item_id =>
        match update_news_item st item_id name url reason agreed_text with
        | .error e => .error e
        | .ok (updated, st') =>
          .ok ((pyStrip (stripBlocks openUpdate closeUpdate response_text), some updated), st')

/-- `llm.chat`, with the network call abstracted by the response text the
model returns: the updated history is the input history plus the new user
message and the assistant response. -/
def llm_chat (history : List Msg) (user_message : Text) (response_text : Text) :
    Text × List Msg :=
  (response_text,
   history ++ [{ role := "user".data, content := user_message },
               { role := "assistant".data, content := response_text }])

/-- `updated_history[-1]["content"] = cleaned`: rewrite the content of
the last message. -/
def setLastContent (c : Text) : List Msg → List Msg
  | [] => []
  | [m] => [{ m with content := c }]
  | m :: rest => m :: setLastContent c rest

/-- The whole mutable state `chat_endpoint` touches: the session dict,
the rate-limit dict, and the SQLite store. -/
structure World where
  sessions : SessionsMap
  rate : RateMap
  store : Store
deriving Repr, DecidableEq

/-- The classified failures of a chat turn: 429 (throttled), 400 (empty
message), 502 (model call failed), and the unclassified 500 produced when
`_parse_update_tag` raises out of the endpoint. -/
inductive ChatErr where
  | throttled
  | emptyMessage
  | upstream
  | internal
deriving Repr, DecidableEq

/-- The separator of the model-only system note injected with feed data. -/
def systemNote : Text :=
  "\n\n[SYSTEM NOTE — for assistant only, do not quote verbatim]\n".data

/-- `chat_endpoint` (`POST /api/chat`).  The external model call is
abstracted by `llmResp`: `none` models the call raising, `some raw` a
reply with text `raw`.  `now` is the monotonic clock, `dbNow` the SQLite
insert timestamp.  Returns the HTTP outcome and the final state. -/
def chat_endpoint (w : World) (ip : Nat) (sid : SessionId) (message : Text)
    (llmResp : Option Text) (now : Int) (dbNow : Text) :
    Except ChatErr (Text × Option NewsItem) × World :=
  let rl := _check_rate_limit w.rate ip now
  if !rl.1 then (.error .throttled, { w with rate := rl.2 })
  else
    let gs := _get_or_create_session w.sessions sid
    let history := _trim_history gs.1
    let user_message := pyStrip message
    let w1 : World := { sessions := gs.2, rate := rl.2, store := w.store }
    if user_message.isEmpty then (.error .emptyMessage, w1)
    else
      let effective_message :=
        if _wants_feed user_message then
          user_message ++ systemNote ++ _build_feed_context w.store
        else user_message
      match llmResp with
      | none => (.error .upstream, w1)
      | some rawText =>
        let lc := llm_chat history effective_message rawText
        let raw_response := strip_dashes lc.1
        let ps := _parse_save_tag w.store dbNow raw_response
        match ps.1.2 with
        | some savedItem =>
          let finalHistory := setLastContent ps.1.1 lc.2
          (.ok (ps.1.1, some savedItem),
           { sessions := dictSet sid finalHistory gs.2, rate := rl.2, store := ps.2 })
        | none =>
          match _parse_update_tag ps.2 ps.1.1 with
          | .error _ =>
            (.error .internal, { sessions := gs.2, rate := rl.2, store := ps.2 })
          | .ok ((cleaned, savedItem), st') =>
            let finalHistory := setLastContent cleaned lc.2
            (.ok (cleaned, savedItem),
             { sessions := dictSet sid finalHistory gs.2, rate := rl.2, store := st' })

/-- Is there an index below both lengths at which `lit` and `y` disagree
(via `eqv`)?  Such a disagreement defeats a match of `lit` at `y ++ t`
for every continuation `t`. -/
def mismatchWithin (eqv : Char → Char → Bool) : List Char → Text → Bool
  | [], _ => false
  | _ :: _, [] => false
  | p :: ps, c :: cs => !eqv p c || mismatchWithin eqv ps cs

/-- Every nonempty suffix of `s` disagrees with `lit` within `s` itself:
no match of `lit` can start inside `s`, whatever follows `s`. -/
def cleanPrefix (eqv : Char → Char → Bool) (lit : List Char) : Text → Bool
  | [] => true
  | c :: cs => mismatchWithin eqv lit (c :: cs) && cleanPrefix eqv lit cs

/-- No character of `s` matches `'<'` under the case-insensitive
comparison.  Since `Char.toLower` fixes `'<'` and maps no other character
to it, this says exactly that `'<'` does not occur in `s`. -/
def ltFree (s : Text) : Bool := s.all (fun c => !ciEq '<' c)

/-- The inside of a well-formed save block: the four tagged fields, with
arbitrary separator text (`s0`–`s4`, e.g. newlines) around them. -/
def saveBody (s0 n s1 u s2 r s3 a s4 : Text) : Text :=
  s0 ++ (fieldOpen "name" ++ (n ++ (fieldClose "name"
    ++ (s1 ++ (fieldOpen "url" ++ (u ++ (fieldClose "url"
    ++ (s2 ++ (fieldOpen "reason" ++ (r ++ (fieldClose "reason"
    ++ (s3 ++ (fieldOpen "agreed_text" ++ (a ++ (fieldClose "agreed_text"
    ++ s4)))))))))))))))

/-- A well-formed save block with the given four field values. -/
def saveBlockText (s0 n s1 u s2 r s3 a s4 : Text) : Text :=
  openSave ++ (saveBody s0 n s1 u s2 r s3 a s4 ++ closeSave)

/-- The inside of a well-formed update block: the id and the four tagged
fields, with arbitrary separator text around them. -/
def updateBody (s0 i s1 n s2 u s3 r s4 a s5 : Text) : Text :=
  s0 ++ (fieldOpen "id" ++ (i ++ (fieldClose "id"
    ++ (s1 ++ (fieldOpen "name" ++ (n ++ (fieldClose "name"
    ++ (s2 ++ (fieldOpen "url" ++ (u ++ (fieldClose "url"
    ++ (s3 ++ (fieldOpen "reason" ++ (r ++ (fieldClose "reason"
    ++ (s4 ++ (fieldOpen "agreed_text" ++ (a ++ (fieldClose "agreed_text"
    ++ s5)))))))))))))))))))

/-- A well-formed update block with the given id text and field values. -/
def updateBlockText (s0 i s1 n s2 u s3 r s4 a s5 : Text) : Text :=
  openUpdate ++ (updateBody s0 i s1 n s2 u s3 r s4 a s5 ++ closeUpdate)

/-- Run a sequence of rate-gate checks for one client at the given
timestamps, collecting the verdicts. -/
def runRateLimit (ip : Nat) : RateMap → List Int → List Bool × RateMap
  | m, [] => ([], m)
  | m, t :: ts =>
    let r := _check_rate_limit m ip t
    let rest := runRateLimit ip r.2 ts
    (r.1 :: rest.1, rest.2)

/-- `n` successive `/api/new-session` calls (with distinct fresh ids)
starting from an empty session store. -/
def repeatNewSessions : Nat → SessionsMap
  | 0 => []
  | n + 1 => new_session n (repeatNewSessions n)

/-- All timestamps of `ts` lie within one rate window starting at `t0`. -/
def withinWindow (t0 : Int) (ts : List Int) : Bool :=
  ts.all (fun t => decide (t - t0 ≤ RL_WINDOW))

/-- C7: for a history strictly longer than the cap, trimming returns a
history whose first element is the original first element and whose
length is exactly the cap; a history at or below the cap is returned
unchanged. -/
theorem trim_history_spec (h : List Msg) :
    (MAX_HISTORY < h.length →
      (_trim_history h).length = MAX_HISTORY ∧ (_trim_history h).head? = h.head?)
    ∧ (h.length ≤ MAX_HISTORY → _trim_history h = h) := by
  constructor
  · intro hl
    unfold _trim_history
    rw [if_pos hl]
    refine ⟨?_, ?_⟩
    · simp only [List.length_append, List.length_take, List.length_drop, MAX_HISTORY] at *
      omega
    · cases h with
      | nil => simp at hl
      | cons a t => simp

  · intro hl
    unfold _trim_history
    rw [if_neg (by omega)]

/-- C7 witness: a 61-message history trims to 60 messages with the head
preserved. -/
theorem trim_history_spec_witness :
    MAX_HISTORY < (List.replicate 61 ({ role := "assistant".data, content := ['x'] } : Msg)).length
    ∧ ((_trim_history (List.replicate 61 ({ role := "assistant".data, content := ['x'] } : Msg))).length
          = MAX_HISTORY
        ∧ (_trim_history (List.replicate 61 ({ role := "assistant".data, content := ['x'] } : Msg))).head?
          = (List.replicate 61 ({ role := "assistant".data, content := ['x'] } : Msg)).head?) :=
  ⟨by decide,
   (trim_history_spec (List.replicate 61 { role := "assistant".data, content := ['x'] })).1
     (by decide)⟩

/-- Looking up a key just set returns the new value. -/
theorem dictGet_dictSet_self (k : Nat) (v : α) (m : List (Nat × α)) :
    dictGet k (dictSet k v m) = some v := by
  induction m with
  | nil => simp [dictGet, dictSet, List.find?]
  | cons p rest ih =>
    obtain ⟨k', v'⟩ := p
    by_cases h : k' = k
    · subst h
      simp [dictSet, dictGet, List.find?]
    · have hb : (k' == k) = false := by simp [h]
      simp only [dictSet, hb, if_false]
      simpa [dictGet, List.find?, hb] using ih

/-- Looking up a different key is unaffected by a set. -/
theorem dictGet_dictSet_ne (k k' : Nat) (v : α) (m : List (Nat × α)) (h : k' ≠ k) :
    dictGet k' (dictSet k v m) = dictGet k' m := by
  induction m with
  | nil =>
    have hb : (k == k') = false := by simp [Ne.symm h]
    simp [dictGet, dictSet, List.find?, hb]
  | cons p rest ih =>
    obtain ⟨a, b⟩ := p
    by_cases ha : a = k
    · have hb : (k == k') = false := by simp [Ne.symm h]
      simp [dictSet, dictGet, List.find?, ha, hb]
    · have hb : (a == k) = false := by simp [ha]
      by_cases hc : a = k'
      · simp only [dictSet, hb, if_false, Bool.false_eq_true]
        simp [dictGet, List.find?, hc]
      · have hd : (a == k') = false := by simp [hc]
        simpa [dictSet, hb, dictGet, List.find?, hd] using ih

theorem runRateLimit_inWindow (ip : Nat) (t0 : Int) :
    ∀ (ts : List Int) (m : RateMap) (c : Nat),
      dictGet ip m = some (c, t0) → withinWindow t0 ts = true →
      (runRateLimit ip m ts).1
        = (List.range ts.length).map (fun i => decide (c + i < RL_MAX)) := by
  intro ts
  induction ts with
  | nil => intro m c _ _; simp [runRateLimit]
  | cons t ts ih =>
    intro m c hget hw
    have hwt : t - t0 ≤ RL_WINDOW := by
      have h1 := (List.all_eq_true.mp hw) t (by simp)
      simpa using h1
    have hw' : withinWindow t0 ts = true := by
      refine List.all_eq_true.mpr ?_
      intro x hx
      exact (List.all_eq_true.mp hw) x (by simp [hx])
    have hnw : ¬ RL_WINDOW < t - t0 := not_lt.mpr hwt
    have hlen : (t :: ts).length = ts.length + 1 := rfl
    by_cases hc : RL_MAX ≤ c
    · have hstep : _check_rate_limit m ip t = (false, m) := by
        simp [_check_rate_limit, hget, hnw, hc]
      have hrec := ih m c hget hw'
      simp only [runRateLimit, hstep, hrec, hlen]
      rw [List.range_succ_eq_map]
      simp only [List.map_cons, List.map_map]
      refine congrArg₂ _ ?_ ?_
      · simp; omega
      · refine List.map_congr_left ?_
        intro i _
        simp only [Function.comp]
        rw [decide_eq_decide]
        omega
    · push_neg at hc
      have hstep : _check_rate_limit m ip t = (true, dictSet ip (c + 1, t0) m) := by
        simp [_check_rate_limit, hget, hnw, Nat.not_le.mpr hc]
      have hget' : dictGet ip (dictSet ip (c + 1, t0) m) = some (c + 1, t0) :=
        dictGet_dictSet_self ip _ m
      have hrec := ih _ (c + 1) hget' hw'
      simp only [runRateLimit, hstep, hrec, hlen]
      rw [List.range_succ_eq_map]
      simp only [List.map_cons, List.map_map]
      refine congrArg₂ _ ?_ ?_
      · simp; omega
      · refine List.map_congr_left ?_
        intro i _
        simp only [Function.comp]
        rw [decide_eq_decide]
        omega

/-- C9: for one client identity, with every timestamp within one window
of the first check, exactly the first `RL_MAX` checks succeed and all
later ones are rejected; and a check whose elapsed time since the window
start exceeds the window length resets the counter and window start and
succeeds. -/
theorem rate_gate_spec (ip : Nat) (t0 : Int) (ts : List Int)
    (hw : withinWindow t0 ts = true) :
    (runRateLimit ip [] (t0 :: ts)).1
      = (List.range (ts.length + 1)).map (fun i => decide (i < RL_MAX))
    ∧ ∀ (m : RateMap) (c : Nat) (s t : Int),
        dictGet ip m = some (c, s) → RL_WINDOW < t - s →
        _check_rate_limit m ip t = (true, dictSet ip (1, t) m) := by
  constructor
  · have hstep : _check_rate_limit [] ip t0 = (true, dictSet ip (1, t0) []) := by
      simp [_check_rate_limit, dictGet, List.find?]
    have hget : dictGet ip (dictSet ip (1, t0) []) = some (1, t0) :=
      dictGet_dictSet_self ip _ []
    have hrec := runRateLimit_inWindow ip t0 ts _ 1 hget hw
    simp only [runRateLimit, hstep, hrec]
    rw [List.range_succ_eq_map]
    simp only [List.map_cons, List.map_map]
    refine congrArg₂ _ ?_ ?_
    · simp [RL_MAX]
    · refine List.map_congr_left ?_
      intro i _
      simp only [Function.comp]
      rw [decide_eq_decide]
      omega
  · intro m c s t hget hwin
    simp [_check_rate_limit, hget, hwin]

/-- C9 witness: 21 checks at time 0 — the first 20 succeed, the 21st is
rejected. -/
theorem rate_gate_spec_witness :
    withinWindow 0 (List.replicate 20 (0 : Int)) = true
    ∧ (runRateLimit 0 [] ((0 : Int) :: List.replicate 20 0)).1
        = (List.range ((List.replicate 20 (0 : Int)).length + 1)).map
            (fun i => decide (i < RL_MAX)) :=
  ⟨by decide, (rate_gate_spec 0 0 (List.replicate 20 0) (by decide)).1⟩

/-- When the dash character does not occur, the dash pattern has no
match. -/
theorem findDashMatch_eq_none (dash : Char) :
    ∀ t : Text, dash ∉ t → findDashMatch dash t = none := by
  intro t
  induction t with
  | nil => intro _; rfl
  | cons c cs ih =>
    intro hmem
    have htry : tryDashAt dash (c :: cs) = none := by
      unfold tryDashAt
      cases hdw : (c :: cs).dropWhile pyIsSpace with
      | nil => rfl
      | cons d ds =>
        have hd : d ∈ c :: cs := by
          have hsub : (c :: cs).dropWhile pyIsSpace <:+ (c :: cs) :=
            List.dropWhile_suffix pyIsSpace
          rw [hdw] at hsub
          exact hsub.subset (by simp)
        have hne : ¬ d = dash := by
          intro he
          exact hmem (he ▸ hd)
        simp [hne]
    have hcs : findDashMatch dash cs = none := ih (fun hx => hmem (by simp [hx]))
    unfold findDashMatch
    rw [htry, hcs]

/-- A `sub` pass with no match returns the text unchanged (dash case). -/
theorem subDash_of_none (dash : Char) (t : Text) (h : findDashMatch dash t = none) :
    subDash dash t = t := by
  cases t with
  | nil => rfl
  | cons c cs =>
    unfold subDash subDashFuel
    rw [List.length_cons]
    simp only [h]

/-- A `sub` pass with no match returns the text unchanged (comma case). -/
theorem subComma_of_none (t : Text) (h : findCommaMatch t = none) :
    subComma t = t := by
  cases t with
  | nil => rfl
  | cons c cs =>
    unfold subComma subCommaFuel
    rw [List.length_cons]
    simp only [h]

/-- C6 counterexample: the dash-normalization transform is not
idempotent; on the text `,,,` one application gives `,,` and a second
application gives `,`. -/
theorem strip_dashes_not_idempotent :
    strip_dashes (strip_dashes ",,,".data) ≠ strip_dashes ",,,".data := by
  decide

/-- C6 amended: on every already-normalized text — one containing no em
dash, no en dash, and no comma that is followed (across whitespace only)
by another comma — the dash-normalization transform is the identity, so
a second application changes nothing.  Full idempotence fails because the
comma-collapse pass is itself not idempotent. -/
theorem strip_dashes_fixed_on_normalized (t : Text)
    (h1 : emDash ∉ t) (h2 : enDash ∉ t) (h3 : findCommaMatch t = none) :
    strip_dashes t = t := by
  unfold strip_dashes
  rw [subDash_of_none emDash t (findDashMatch_eq_none emDash t h1),
      subDash_of_none enDash t (findDashMatch_eq_none enDash t h2),
      subComma_of_none t h3]

/-- C6 witness: the normalized text `a, b` is a fixed point of the
transform. -/
theorem strip_dashes_fixed_on_normalized_witness :
    emDash ∉ "a, b".data ∧ enDash ∉ "a, b".data
    ∧ findCommaMatch "a, b".data = none
    ∧ strip_dashes "a, b".data = "a, b".data :=
  ⟨by decide, by decide, by decide,
   strip_dashes_fixed_on_normalized "a, b".data (by decide) (by decide) (by decide)⟩

/-- The last element survives dropping an initial segment shorter than
the list. -/
theorem mem_drop_of_getLast? {α : Type} (e : α) :
    ∀ (l : List α) (n : Nat), n < l.length → l.getLast? = some e → e ∈ l.drop n := by
  intro l
  induction l with
  | nil => intro n h _; simp at h
  | cons c cs ih =>
    intro n hn hlast
    cases n with
    | zero => exact List.mem_of_mem_getLast? hlast
    | succ n =>
      have hn' : n < cs.length := by simpa using hn
      have hcs : cs ≠ [] := by
        intro he
        rw [he] at hn'
        simp at hn'
      obtain ⟨d, ds, rfl⟩ := List.exists_cons_of_ne_nil hcs
      have hlast' : (d :: ds).getLast? = some e := by
        rwa [List.getLast?_cons_cons] at hlast
      simpa using ih n hn' hlast'

/-- C8 amended: through `_get_or_create_session` the live session count
never exceeds the ceiling, an eviction never removes the
most-recently-inserted session, and when a creation would exceed the
ceiling the oldest tenth (by insertion order) is evicted before the new
session is inserted.  (The explicit `new_session` endpoint performs no
eviction and can exceed the ceiling — see the counterexample.) -/
theorem session_eviction_spec (m : SessionsMap) (sid : SessionId)
    (h : m.length ≤ MAX_SESSIONS) :
    (_get_or_create_session m sid).2.length ≤ MAX_SESSIONS
    ∧ (∀ e, m.getLast? = some e → e ∈ (_get_or_create_session m sid).2)
    ∧ (dictContains sid m = false → m.length = MAX_SESSIONS →
        (_get_or_create_session m sid).2
          = m.drop (MAX_SESSIONS / 10) ++ [(sid, [])]) := by
  by_cases hc : dictContains sid m = true
  · refine ⟨?_, ?_, ?_⟩
    · simpa [_get_or_create_session, hc] using h
    · intro e hlast
      simpa [_get_or_create_session, hc] using List.mem_of_mem_getLast? hlast
    · intro hfalse
      rw [hc] at hfalse
      cases hfalse
  · have hcf : dictContains sid m = false := by
      cases hb : dictContains sid m
      · rfl
      · exact absurd hb hc
    by_cases hl : MAX_SESSIONS ≤ m.length
    · have hml : m.length = MAX_SESSIONS := le_antisymm h hl
      refine ⟨?_, ?_, ?_⟩
      · simp only [_get_or_create_session, hcf, Bool.false_eq_true, if_false, hl, if_true,
          List.length_append, List.length_drop, List.length_cons, List.length_nil]
        rw [hml]
        decide
      · intro e hlast
        have hmem : e ∈ m.drop (MAX_SESSIONS / 10) := by
          refine mem_drop_of_getLast? e m _ ?_ hlast
          rw [hml]
          decide
        simp [_get_or_create_session, hcf, hl, hmem]
      · intro _ _
        simp [_get_or_create_session, hcf, hl]
    · push_neg at hl
      refine ⟨?_, ?_, ?_⟩
      · simp only [_get_or_create_session, hcf, Bool.false_eq_true, if_false,
          not_le.mpr hl, List.length_append, List.length_cons, List.length_nil]
        omega
      · intro e hlast
        simp [_get_or_create_session, hcf, not_le.mpr hl,
          List.mem_of_mem_getLast? hlast]
      · intro _ hml
        exact absurd hml (by omega)

/-- C8 witness: a one-session store stays within the ceiling when a new
session id is fetched-or-created. -/
theorem session_eviction_spec_witness :
    ([((0 : SessionId), ([] : List Msg))].length ≤ MAX_SESSIONS)
    ∧ ((_get_or_create_session [(0, [])] 1).2.length ≤ MAX_SESSIONS
       ∧ (∀ e, ([((0 : SessionId), ([] : List Msg))]).getLast? = some e →
            e ∈ (_get_or_create_session [(0, [])] 1).2)
       ∧ (dictContains 1 [((0 : SessionId), ([] : List Msg))] = false →
            ([((0 : SessionId), ([] : List Msg))]).length = MAX_SESSIONS →
            (_get_or_create_session [(0, [])] 1).2
              = ([((0 : SessionId), ([] : List Msg))]).drop (MAX_SESSIONS / 10)
                  ++ [(1, [])])) :=
  ⟨by decide, session_eviction_spec [(0, [])] 1 (by decide)⟩

/-- Keys of `repeatNewSessions n` are all below `n`. -/
theorem dictGet_repeatNewSessions_none :
    ∀ (n k : Nat), n ≤ k → dictGet k (repeatNewSessions n) = none := by
  intro n
  induction n with
  | zero => intro k _; rfl
  | succ n ih =>
    intro k hk
    have hne : k ≠ n := by omega
    unfold repeatNewSessions new_session
    rw [dictGet_dictSet_ne n k _ _ hne]
    exact ih k (by omega)

/-- Setting an absent key grows the dict by one entry. -/
theorem dictSet_length_of_get_none {α : Type} (k : Nat) (v : α) :
    ∀ m : List (Nat × α), dictGet k m = none → (dictSet k v m).length = m.length + 1 := by
  intro m
  induction m with
  | nil => intro _; rfl
  | cons p rest ih =>
    intro hget
    obtain ⟨a, b⟩ := p
    cases hb : (a == k) with
    | true =>
      exfalso
      simp [dictGet, List.find?, hb] at hget
    | false =>
      have hrest : dictGet k rest = none := by
        simpa [dictGet, List.find?, hb] using hget
      simp [dictSet, hb, ih hrest]

/-- Each `new_session` call on a fresh id grows the store by one. -/
theorem repeatNewSessions_length : ∀ n : Nat, (repeatNewSessions n).length = n := by
  intro n
  induction n with
  | zero => rfl
  | succ n ih =>
    unfold repeatNewSessions new_session
    rw [dictSet_length_of_get_none _ _ _ (dictGet_repeatNewSessions_none n n le_rfl), ih]

/-- C8 counterexample: 501 successive `/api/new-session` creations leave
501 live sessions — `new_session` performs no eviction, so the ceiling
of 500 is exceeded. -/
theorem session_ceiling_exceeded :
    MAX_SESSIONS < (repeatNewSessions (MAX_SESSIONS + 1)).length := by
  rw [repeatNewSessions_length]
  omega

/-- C4: the item-store update returns the full updated record when the id
exists, but on a missing id the `UPDATE` matches nothing, `fetchone()`
yields `None`, and `dict(None)` raises an unclassified `TypeError`
instead of returning a not-found signal. -/
theorem update_news_item_missing_id_raises :
    (update_news_item { items := [], nextId := 1 } 1
        "n".data "u".data "r".data "a".data = .error .typeError)
    ∧ (update_news_item
        { items := [{ id := 1, submitter_name := "x".data, url := "y".data,
                      reason := "z".data, agreed_text := "w".data,
                      created_at := "T".data, done := false }], nextId := 2 }
        1 "n".data "u".data "r".data "a".data
      = .ok ({ id := 1, submitter_name := "n".data, url := "u".data,
               reason := "r".data, agreed_text := "a".data,
               created_at := "T".data, done := false },
             { items := [{ id := 1, submitter_name := "n".data, url := "u".data,
                           reason := "r".data, agreed_text := "a".data,
                           created_at := "T".data, done := false }], nextId := 2 })) := by
  constructor
  · rfl
  · rfl

/-- `dropEndWhile` keeps an initial segment of its argument. -/
theorem dropEndWhile_prefix_self (p : Char → Bool) (l : Text) : dropEndWhile p l <+: l := by
  have h : l.reverse.dropWhile p <:+ l.reverse := List.dropWhile_suffix p
  have h2 : ((l.reverse.dropWhile p).reverse).reverse <:+ l.reverse
      ↔ (l.reverse.dropWhile p).reverse <+: l := List.reverse_suffix
  rw [List.reverse_reverse] at h2
  exact h2.mp (by simpa using h)

/-- Dropping leading whitespace from a text that starts with
non-whitespace (such as the prefix of an already left-stripped text) is
the identity. -/
theorem dropWhile_dropEndWhile_dropWhile (p : Char → Bool) (s : Text) :
    (dropEndWhile p (s.dropWhile p)).dropWhile p = dropEndWhile p (s.dropWhile p) := by
  cases hpre : dropEndWhile p (s.dropWhile p) with
  | nil => rfl
  | cons c cs =>
    have hprefix : dropEndWhile p (s.dropWhile p) <+: s.dropWhile p :=
      dropEndWhile_prefix_self p (s.dropWhile p)
    rw [hpre] at hprefix
    obtain ⟨rest, hrest⟩ := hprefix
    have hc : p c = false := by
      have h := List.head?_dropWhile_not p s
      rw [← hrest] at h
      simpa using h
    simp [List.dropWhile_cons, hc]

/-- Trailing-strip is idempotent. -/
theorem dropEndWhile_idem (p : Char → Bool) (l : Text) :
    dropEndWhile p (dropEndWhile p l) = dropEndWhile p l := by
  unfold dropEndWhile
  rw [List.reverse_reverse, List.dropWhile_idempotent]

/-- Python `strip` is idempotent. -/
theorem pyStrip_idem (s : Text) : pyStrip (pyStrip s) = pyStrip s := by
  unfold pyStrip
  rw [dropWhile_dropEndWhile_dropWhile, dropEndWhile_idem]

/-- Stripping only removes characters. -/
theorem pyStrip_subset (s : Text) : ∀ c, c ∈ pyStrip s → c ∈ s := by
  intro c hc
  unfold pyStrip at hc
  have h1 : c ∈ s.dropWhile pyIsSpace := (dropEndWhile_prefix_self _ _).subset hc
  exact (List.dropWhile_suffix pyIsSpace).subset h1

/-- Stripping preserves freedom from `'<'`. -/
theorem ltFree_pyStrip (s : Text) (h : ltFree s = true) : ltFree (pyStrip s) = true := by
  refine List.all_eq_true.mpr ?_
  intro c hc
  exact (List.all_eq_true.mp h) c (pyStrip_subset s c hc)

/-- Case-insensitive comparison is reflexive. -/
theorem ciEq_refl (a : Char) : ciEq a a = true := by simp [ciEq]

/-- A literal matches at the head of itself plus anything. -/
theorem matchLit_self : ∀ (lit t : Text), matchLit ciEq lit (lit ++ t) = true := by
  intro lit
  induction lit with
  | nil => intro t; rfl
  | cons p ps ih => intro t; simp [matchLit, ciEq_refl, ih t]

/-- A successful match needs at least the literal's length of text. -/
theorem matchLit_le (eqv : Char → Char → Bool) :
    ∀ (lit t : Text), matchLit eqv lit t = true → lit.length ≤ t.length := by
  intro lit
  induction lit with
  | nil => intro t _; simp
  | cons p ps ih =>
    intro t h
    cases t with
    | nil => exact absurd h (by simp [matchLit])
    | cons c cs =>
      have h2 := (Bool.and_eq_true _ _).mp h
      simpa using Nat.succ_le_succ (ih cs h2.2)

/-- An in-bounds disagreement defeats the match, whatever follows. -/
theorem mismatchWithin_not_match (eqv : Char → Char → Bool) :
    ∀ (lit y t : Text), mismatchWithin eqv lit y = true →
      matchLit eqv lit (y ++ t) = false := by
  intro lit
  induction lit with
  | nil => intro y t h; simp [mismatchWithin] at h
  | cons p ps ih =>
    intro y t h
    cases y with
    | nil => simp [mismatchWithin] at h
    | cons c cs =>
      have hd : eqv p c = false ∨ mismatchWithin eqv ps cs = true := by
        simpa [mismatchWithin] using h
      rcases hd with hmc | hrec
      · simp [matchLit, hmc]
      · simp [matchLit, ih cs t hrec]

/-- An in-bounds disagreement survives extending the text. -/
theorem mismatchWithin_extend (eqv : Char → Char → Bool) :
    ∀ (lit y z : Text), mismatchWithin eqv lit y = true →
      mismatchWithin eqv lit (y ++ z) = true := by
  intro lit
  induction lit with
  | nil => intro y z h; simp [mismatchWithin] at h
  | cons p ps ih =>
    intro y z h
    cases y with
    | nil => simp [mismatchWithin] at h
    | cons c cs =>
      have hd : eqv p c = false ∨ mismatchWithin eqv ps cs = true := by
        simpa [mismatchWithin] using h
      rcases hd with hmc | hrec
      · simp [mismatchWithin, hmc]
      · simp [mismatchWithin, ih cs z hrec]

/-- Clean prefixes compose under concatenation. -/
theorem cleanPrefix_append (eqv : Char → Char → Bool) (lit : Text) :
    ∀ (a b : Text), cleanPrefix eqv lit a = true → cleanPrefix eqv lit b = true →
      cleanPrefix eqv lit (a ++ b) = true := by
  intro a
  induction a with
  | nil => intro b _ hb; simpa using hb
  | cons c cs ih =>
    intro b ha hb
    have h1 : mismatchWithin eqv lit (c :: cs) = true :=
      ((Bool.and_eq_true _ _).mp (by simpa [cleanPrefix] using ha)).1
    have h2 : cleanPrefix eqv lit cs = true :=
      ((Bool.and_eq_true _ _).mp (by simpa [cleanPrefix] using ha)).2
    have h3 := mismatchWithin_extend eqv lit (c :: cs) b h1
    simp only [List.cons_append] at h3 ⊢
    simp [cleanPrefix, h3, ih b h2 hb]

/-- A text without `'<'` is a clean prefix for any `'<'`-headed literal. -/
theorem cleanPrefix_of_ltFree (ps : Text) :
    ∀ s : Text, ltFree s = true → cleanPrefix ciEq ('<' :: ps) s = true := by
  intro s
  induction s with
  | nil => intro _; rfl
  | cons c cs ih =>
    intro h
    have hc : ciEq '<' c = false := by
      have := (List.all_eq_true.mp h) c (by simp)
      simpa using this
    have hcs : ltFree cs = true := by
      refine List.all_eq_true.mpr ?_
      intro x hx
      exact (List.all_eq_true.mp h) x (by simp [hx])
    simp [cleanPrefix, mismatchWithin, hc, ih hcs]

/-- Unfolding equation of the scanner on an empty text. -/
theorem splitAtFirst_nil (eqv : Char → Char → Bool) (lit : Text) :
    splitAtFirst eqv lit []
      = if matchLit eqv lit [] = true then some ([], []) else none := rfl

/-- Unfolding equation of the scanner on a nonempty text. -/
theorem splitAtFirst_cons (eqv : Char → Char → Bool) (lit : Text) (c : Char) (cs : Text) :
    splitAtFirst eqv lit (c :: cs)
      = if matchLit eqv lit (c :: cs) = true then some ([], (c :: cs).drop lit.length)
        else
          match splitAtFirst eqv lit cs with
          | none => none
          | some (p, q) => some (c :: p, q) := rfl

/-- Scanning may skip over a clean prefix wholesale. -/
theorem splitAtFirst_skip (eqv : Char → Char → Bool) (lit : Text) :
    ∀ (s t : Text), cleanPrefix eqv lit s = true →
      splitAtFirst eqv lit (s ++ t)
        = (splitAtFirst eqv lit t).map (fun p => (s ++ p.1, p.2)) := by
  intro s
  induction s with
  | nil =>
    intro t _
    cases h : splitAtFirst eqv lit t with
    | none => simp [h]
    | some p => simp [h]
  | cons c cs ih =>
    intro t hclean
    have h1 : mismatchWithin eqv lit (c :: cs) = true :=
      ((Bool.and_eq_true _ _).mp (by simpa [cleanPrefix] using hclean)).1
    have h2 : cleanPrefix eqv lit cs = true :=
      ((Bool.and_eq_true _ _).mp (by simpa [cleanPrefix] using hclean)).2
    have hnm : matchLit eqv lit (c :: (cs ++ t)) = false := by
      have := mismatchWithin_not_match eqv lit (c :: cs) t h1
      simpa using this
    rw [List.cons_append, splitAtFirst_cons, hnm]
    simp only [Bool.false_eq_true, if_false]
    rw [ih t h2]
    cases h : splitAtFirst eqv lit t with
    | none => simp
    | some p => obtain ⟨p1, p2⟩ := p; simp

/-- A nonempty literal is found immediately at its own occurrence. -/
theorem splitAtFirst_here (lit : Text) (hne : lit ≠ []) :
    ∀ t : Text, splitAtFirst ciEq lit (lit ++ t) = some ([], t) := by
  intro t
  obtain ⟨p, ps, rfl⟩ := List.exists_cons_of_ne_nil hne
  have hm : matchLit ciEq (p :: ps) (p :: (ps ++ t)) = true := by
    have := matchLit_self (p :: ps) t
    simpa using this
  rw [List.cons_append, splitAtFirst_cons, hm]
  simp only [if_true]
  show some ([], ((p :: ps) ++ t).drop (p :: ps).length) = some ([], t)
  rw [List.drop_left]

/-- Resolution of the leftmost search on an explicit decomposition. -/
theorem splitAtFirst_resolve (lit : Text) (hne : lit ≠ []) (s t : Text)
    (hclean : cleanPrefix ciEq lit s = true) :
    splitAtFirst ciEq lit (s ++ (lit ++ t)) = some (s, t) := by
  rw [splitAtFirst_skip ciEq lit s (lit ++ t) hclean, splitAtFirst_here lit hne t]
  simp

/-- A `'<'`-headed literal does not occur in a `'<'`-free text. -/
theorem splitAtFirst_none_of_ltFree (ps : Text) :
    ∀ s : Text, ltFree s = true → splitAtFirst ciEq ('<' :: ps) s = none := by
  intro s
  induction s with
  | nil => intro _; rfl
  | cons c cs ih =>
    intro h
    have hc : ciEq '<' c = false := by
      have := (List.all_eq_true.mp h) c (by simp)
      simpa using this
    have hcs : ltFree cs = true := by
      refine List.all_eq_true.mpr ?_
      intro x hx
      exact (List.all_eq_true.mp h) x (by simp [hx])
    have hnm : matchLit ciEq ('<' :: ps) (c :: cs) = false := by
      simp [matchLit, hc]
    rw [splitAtFirst_cons, hnm]
    simp only [Bool.false_eq_true, if_false, ih hcs]

/-- Length bookkeeping for a successful leftmost search. -/
theorem splitAtFirst_length (eqv : Char → Char → Bool) (lit : Text) :
    ∀ (t p q : Text), splitAtFirst eqv lit t = some (p, q) →
      p.length + lit.length + q.length = t.length := by
  intro t
  induction t with
  | nil =>
    intro p q h
    rw [splitAtFirst_nil] at h
    by_cases hm : matchLit eqv lit [] = true
    · cases lit with
      | nil =>
        rw [if_pos hm] at h
        obtain ⟨h1, h2⟩ := Prod.mk.injEq .. ▸ Option.some.inj h
        subst h1; subst h2
        rfl
      | cons a as => simp [matchLit] at hm
    · rw [if_neg hm] at h
      cases h
  | cons c cs ih =>
    intro p q h
    rw [splitAtFirst_cons] at h
    by_cases hm : matchLit eqv lit (c :: cs) = true
    · rw [if_pos hm] at h
      obtain ⟨h1, h2⟩ := Prod.mk.injEq .. ▸ Option.some.inj h
      subst h1; subst h2
      have hle := matchLit_le eqv lit (c :: cs) hm
      simp only [List.length_drop, List.length_nil]
      omega
    · rw [if_neg hm] at h
      cases hs : splitAtFirst eqv lit cs with
      | none => rw [hs] at h; cases h
      | some pq =>
        obtain ⟨p', q'⟩ := pq
        rw [hs] at h
        obtain ⟨h1, h2⟩ := Prod.mk.injEq .. ▸ Option.some.inj h
        subst h1; subst h2
        have := ih p' q' hs
        simp only [List.length_cons]
        omega

/-- Resolution of the block search on an explicit decomposition. -/
theorem findBlock_resolve (op cl : Text) (hop : op ≠ []) (hcl : cl ≠ [])
    (pre body post : Text)
    (hpre : cleanPrefix ciEq op pre = true) (hbody : cleanPrefix ciEq cl body = true) :
    findBlock op cl (pre ++ (op ++ (body ++ (cl ++ post)))) = some (pre, body, post) := by
  unfold findBlock
  rw [splitAtFirst_resolve op hop pre (body ++ (cl ++ post)) hpre]
  simp only
  rw [splitAtFirst_resolve cl hcl body post hbody]

/-- No block begins in a `'<'`-free text. -/
theorem findBlock_none_of_ltFree (ps cl : Text) (t : Text) (h : ltFree t = true) :
    findBlock ('<' :: ps) cl t = none := by
  unfold findBlock
  rw [splitAtFirst_none_of_ltFree ps t h]

/-- Length bookkeeping for a successful block search. -/
theorem findBlock_length (op cl : Text) (t pre mid post : Text)
    (h : findBlock op cl t = some (pre, mid, post)) :
    pre.length + op.length + mid.length + cl.length + post.length = t.length := by
  unfold findBlock at h
  cases h1 : splitAtFirst ciEq op t with
  | none => rw [h1] at h; cases h
  | some pr =>
    obtain ⟨p, rest⟩ := pr
    simp only [h1] at h
    cases h2 : splitAtFirst ciEq cl rest with
    | none =>
      simp only [h2] at h
      exact absurd h (by simp)
    | some mq =>
      obtain ⟨m, q⟩ := mq
      simp only [h2, Option.some.injEq, Prod.mk.injEq] at h
      obtain ⟨hp, hm, hq⟩ := h
      have e1 := splitAtFirst_length ciEq op t p rest h1
      have e2 := splitAtFirst_length ciEq cl rest m q h2
      subst hp; subst hm; subst hq
      omega

/-- No block is found in the empty text (nonempty opening literal). -/
theorem findBlock_nil (op cl : Text) (hop : op ≠ []) : findBlock op cl [] = none := by
  obtain ⟨a, as, rfl⟩ := List.exists_cons_of_ne_nil hop
  rfl

/-- Unfolding equation of the fueled sub pass. -/
theorem stripBlocksFuel_succ (op cl : Text) (f : Nat) (t : Text) :
    stripBlocksFuel op cl (f + 1) t
      = match findBlock op cl t with
        | none => t
        | some (pre, _, post) => pre ++ stripBlocksFuel op cl f post := rfl

/-- The fueled pass is independent of the fuel once the fuel covers the
text length. -/
theorem stripBlocksFuel_stable (op cl : Text) (hop : op ≠ []) (hcl : cl ≠ []) :
    ∀ (fuel : Nat) (t : Text), t.length ≤ fuel →
      stripBlocksFuel op cl fuel t = stripBlocks op cl t := by
  intro fuel
  induction fuel using Nat.strong_induction_on with
  | _ fuel ih =>
    intro t hle
    cases t with
    | nil =>
      cases fuel with
      | zero => rfl
      | succ f =>
        rw [stripBlocksFuel_succ, findBlock_nil op cl hop]
        rfl
    | cons c cs =>
      cases fuel with
      | zero => simp at hle
      | succ f =>
        have hunf : stripBlocks op cl (c :: cs)
            = stripBlocksFuel op cl (cs.length + 1) (c :: cs) := rfl
        rw [stripBlocksFuel_succ, hunf, stripBlocksFuel_succ]
        cases hfb : findBlock op cl (c :: cs) with
        | none => rfl
        | some pmq =>
          obtain ⟨pre, mid, post⟩ := pmq
          have hlen := findBlock_length op cl (c :: cs) pre mid post hfb
          have hople : 1 ≤ op.length := List.length_pos.mpr hop
          have hclle : 1 ≤ cl.length := List.length_pos.mpr hcl
          simp only [List.length_cons] at hlen hle
          have h1 : stripBlocksFuel op cl f post = stripBlocks op cl post := by
            refine ih f (by omega) post (by omega)
          have h2 : stripBlocksFuel op cl cs.length post = stripBlocks op cl post := by
            refine ih cs.length (by omega) post (by omega)
          simp only [h1, h2]

/-- One-step characterization of the sub pass. -/
theorem stripBlocks_eq (op cl : Text) (hop : op ≠ []) (hcl : cl ≠ []) (t : Text) :
    stripBlocks op cl t
      = match findBlock op cl t with
        | none => t
        | some (pre, _, post) => pre ++ stripBlocks op cl post := by
  cases t with
  | nil => rw [show stripBlocks op cl [] = [] from rfl, findBlock_nil op cl hop]
  | cons c cs =>
    have hunf : stripBlocks op cl (c :: cs)
        = stripBlocksFuel op cl (cs.length + 1) (c :: cs) := rfl
    rw [hunf, stripBlocksFuel_succ]
    cases hfb : findBlock op cl (c :: cs) with
    | none => rfl
    | some pmq =>
      obtain ⟨pre, mid, post⟩ := pmq
      have hlen := findBlock_length op cl (c :: cs) pre mid post hfb
      have hople : 1 ≤ op.length := List.length_pos.mpr hop
      have hclle : 1 ≤ cl.length := List.length_pos.mpr hcl
      simp only [List.length_cons] at hlen
      have hst : stripBlocksFuel op cl cs.length post = stripBlocks op cl post :=
        stripBlocksFuel_stable op cl hop hcl cs.length post (by omega)
      simp only [hst]

/-- Clean-prefix from `'<'`-freedom, for any `'<'`-headed literal. -/
theorem cleanPrefix_headLt (lit : Text) (hhead : lit.head? = some '<')
    (s : Text) (h : ltFree s = true) : cleanPrefix ciEq lit s = true := by
  cases lit with
  | nil => cases hhead
  | cons c cs =>
    have hc : c = '<' := by simpa using hhead
    subst hc
    exact cleanPrefix_of_ltFree cs s h

/-- `'<'`-freedom is preserved by concatenation. -/
theorem ltFree_append (a b : Text) (ha : ltFree a = true) (hb : ltFree b = true) :
    ltFree (a ++ b) = true := by
  simp only [ltFree, List.all_append]
  exact (Bool.and_eq_true _ _).mpr ⟨ha, hb⟩

/-- A `'<'`-headed literal does not occur in a `'<'`-free text. -/
theorem containsLit_false_of_ltFree (lit : Text) (hhead : lit.head? = some '<')
    (s : Text) (h : ltFree s = true) : containsLit lit s = false := by
  cases lit with
  | nil => cases hhead
  | cons c cs =>
    have hc : c = '<' := by simpa using hhead
    subst hc
    simp [containsLit, splitAtFirst_none_of_ltFree cs s h]

/-- Field extraction resolved on an explicit decomposition of the block. -/
theorem extractField_resolve (tag : String) (pre mid post : Text)
    (hpre : cleanPrefix ciEq (fieldOpen tag) pre = true)
    (hmid : cleanPrefix ciEq (fieldClose tag) mid = true) :
    extractField tag (pre ++ (fieldOpen tag ++ (mid ++ (fieldClose tag ++ post))))
      = pyStrip mid := by
  unfold extractField
  have hop : fieldOpen tag ≠ [] := by simp [fieldOpen]
  have hcl : fieldClose tag ≠ [] := by simp [fieldClose]
  have hfb := findBlock_resolve (fieldOpen tag) (fieldClose tag) hop hcl
    pre mid post hpre hmid
  simp only [hfb]

/-- A single well-formed block surrounded by block-free text strips to
its surroundings. -/
theorem stripBlocks_single (op cl : Text) (hhead : op.head? = some '<') (hcl : cl ≠ [])
    (pre body post : Text) (hpre : cleanPrefix ciEq op pre = true)
    (hbody : cleanPrefix ciEq cl body = true) (hpost : ltFree post = true) :
    stripBlocks op cl (pre ++ (op ++ (body ++ (cl ++ post)))) = pre ++ post := by
  obtain ⟨c, cs, rfl⟩ : ∃ c cs, op = c :: cs := by
    cases op with
    | nil => cases hhead
    | cons c cs => exact ⟨c, cs, rfl⟩
  have hc : c = '<' := by simpa using hhead
  subst hc
  have hop : ('<' :: cs) ≠ [] := by simp
  rw [stripBlocks_eq _ cl hop hcl]
  have hfb := findBlock_resolve ('<' :: cs) cl hop hcl pre body post hpre hbody
  simp only [hfb]
  have hrest : stripBlocks ('<' :: cs) cl post = post := by
    rw [stripBlocks_eq _ cl hop hcl, findBlock_none_of_ltFree cs cl post hpost]
  rw [hrest]

/-- Two well-formed blocks with block-free text around and between them
strip to the concatenated surroundings. -/
theorem stripBlocks_two (op cl : Text) (hhead : op.head? = some '<') (hcl : cl ≠ [])
    (pre b1 mid b2 post : Text) (hpre : cleanPrefix ciEq op pre = true)
    (hb1 : cleanPrefix ciEq cl b1 = true) (hmid : ltFree mid = true)
    (hb2 : cleanPrefix ciEq cl b2 = true) (hpost : ltFree post = true) :
    stripBlocks op cl
        (pre ++ (op ++ (b1 ++ (cl ++ (mid ++ (op ++ (b2 ++ (cl ++ post))))))))
      = pre ++ (mid ++ post) := by
  obtain ⟨c, cs, rfl⟩ : ∃ c cs, op = c :: cs := by
    cases op with
    | nil => cases hhead
    | cons c cs => exact ⟨c, cs, rfl⟩
  have hc : c = '<' := by simpa using hhead
  subst hc
  have hop : ('<' :: cs) ≠ [] := by simp
  rw [stripBlocks_eq _ cl hop hcl]
  have hfb := findBlock_resolve ('<' :: cs) cl hop hcl pre b1
    (mid ++ (('<' :: cs) ++ (b2 ++ (cl ++ post)))) hpre hb1
  simp only [hfb]
  rw [stripBlocks_single ('<' :: cs) cl rfl hcl mid b2 post
    (cleanPrefix_of_ltFree cs mid hmid) hb2 hpost]

/-- The four fields of a well-formed save body extract to their stripped
values. -/
theorem saveBody_extracts (s0 n s1 u s2 r s3 a s4 : Text)
    (h0 : ltFree s0 = true) (hn : ltFree n = true) (h1 : ltFree s1 = true)
    (hu : ltFree u = true) (h2 : ltFree s2 = true) (hr : ltFree r = true)
    (h3 : ltFree s3 = true) (ha : ltFree a = true) (h4 : ltFree s4 = true) :
    extractField "name" (saveBody s0 n s1 u s2 r s3 a s4) = pyStrip n
    ∧ extractField "url" (saveBody s0 n s1 u s2 r s3 a s4) = pyStrip u
    ∧ extractField "reason" (saveBody s0 n s1 u s2 r s3 a s4) = pyStrip r
    ∧ extractField "agreed_text" (saveBody s0 n s1 u s2 r s3 a s4) = pyStrip a := by
  refine ⟨?_, ?_, ?_, ?_⟩
  · have hd : saveBody s0 n s1 u s2 r s3 a s4
        = s0 ++ (fieldOpen "name" ++ (n ++ (fieldClose "name"
            ++ (s1 ++ (fieldOpen "url" ++ (u ++ (fieldClose "url"
            ++ (s2 ++ (fieldOpen "reason" ++ (r ++ (fieldClose "reason"
            ++ (s3 ++ (fieldOpen "agreed_text" ++ (a ++ (fieldClose "agreed_text"
            ++ s4))))))))))))))) := by
      simp [saveBody, List.append_assoc]
    rw [hd]
    refine extractField_resolve "name" _ _ _ ?_ ?_
    · exact cleanPrefix_headLt _ (by rfl) _ h0
    · exact cleanPrefix_headLt _ (by rfl) _ hn
  · have hd : saveBody s0 n s1 u s2 r s3 a s4
        = (s0 ++ (fieldOpen "name" ++ (n ++ (fieldClose "name" ++ s1))))
            ++ (fieldOpen "url" ++ (u ++ (fieldClose "url"
            ++ (s2 ++ (fieldOpen "reason" ++ (r ++ (fieldClose "reason"
            ++ (s3 ++ (fieldOpen "agreed_text" ++ (a ++ (fieldClose "agreed_text"
            ++ s4))))))))))) := by
      simp [saveBody, List.append_assoc]
    rw [hd]
    refine extractField_resolve "url" _ _ _ ?_ ?_
    · repeat
        first
          | exact cleanPrefix_headLt _ (by rfl) _ (by assumption)
          | apply cleanPrefix_append
          | decide
    · exact cleanPrefix_headLt _ (by rfl) _ hu
  · have hd : saveBody s0 n s1 u s2 r s3 a s4
        = (s0 ++ (fieldOpen "name" ++ (n ++ (fieldClose "name"
            ++ (s1 ++ (fieldOpen "url" ++ (u ++ (fieldClose "url" ++ s2))))))))
            ++ (fieldOpen "reason" ++ (r ++ (fieldClose "reason"
            ++ (s3 ++ (fieldOpen "agreed_text" ++ (a ++ (fieldClose "agreed_text"
            ++ s4))))))) := by
      simp [saveBody, List.append_assoc]
    rw [hd]
    refine extractField_resolve "reason" _ _ _ ?_ ?_
    · repeat
        first
          | exact cleanPrefix_headLt _ (by rfl) _ (by assumption)
          | apply cleanPrefix_append
          | decide
    · exact cleanPrefix_headLt _ (by rfl) _ hr
  · have hd : saveBody s0 n s1 u s2 r s3 a s4
        = (s0 ++ (fieldOpen "name" ++ (n ++ (fieldClose "name"
            ++ (s1 ++ (fieldOpen "url" ++ (u ++ (fieldClose "url"
            ++ (s2 ++ (fieldOpen "reason" ++ (r ++ (fieldClose "reason" ++ s3))))))))))))
            ++ (fieldOpen "agreed_text" ++ (a ++ (fieldClose "agreed_text" ++ s4))) := by
      simp [saveBody, List.append_assoc]
    rw [hd]
    refine extractField_resolve "agreed_text" _ _ _ ?_ ?_
    · repeat
        first
          | exact cleanPrefix_headLt _ (by rfl) _ (by assumption)
          | apply cleanPrefix_append
          | decide
    · exact cleanPrefix_headLt _ (by rfl) _ ha

/-- The five fields of a well-formed update body extract to their
stripped values. -/
theorem updateBody_extracts (s0 i s1 n s2 u s3 r s4 a s5 : Text)
    (h0 : ltFree s0 = true) (hi : ltFree i = true) (h1 : ltFree s1 = true)
    (hn : ltFree n = true) (h2 : ltFree s2 = true) (hu : ltFree u = true)
    (h3 : ltFree s3 = true) (hr : ltFree r = true) (h4 : ltFree s4 = true)
    (ha : ltFree a = true) (h5 : ltFree s5 = true) :
    extractField "id" (updateBody s0 i s1 n s2 u s3 r s4 a s5) = pyStrip i
    ∧ extractField "name" (updateBody s0 i s1 n s2 u s3 r s4 a s5) = pyStrip n
    ∧ extractField "url" (updateBody s0 i s1 n s2 u s3 r s4 a s5) = pyStrip u
    ∧ extractField "reason" (updateBody s0 i s1 n s2 u s3 r s4 a s5) = pyStrip r
    ∧ extractField "agreed_text" (updateBody s0 i s1 n s2 u s3 r s4 a s5) = pyStrip a := by
  refine ⟨?_, ?_, ?_, ?_, ?_⟩
  · have hd : updateBody s0 i s1 n s2 u s3 r s4 a s5
        = s0 ++ (fieldOpen "id" ++ (i ++ (fieldClose "id"
            ++ (s1 ++ (fieldOpen "name" ++ (n ++ (fieldClose "name"
            ++ (s2 ++ (fieldOpen "url" ++ (u ++ (fieldClose "url"
            ++ (s3 ++ (fieldOpen "reason" ++ (r ++ (fieldClose "reason"
            ++ (s4 ++ (fieldOpen "agreed_text" ++ (a ++ (fieldClose "agreed_text"
            ++ s5))))))))))))))))))) := by
      simp [updateBody, List.append_assoc]
    rw [hd]
    refine extractField_resolve "id" _ _ _ ?_ ?_
    · exact cleanPrefix_headLt _ (by rfl) _ h0
    · exact cleanPrefix_headLt _ (by rfl) _ hi
  · have hd : updateBody s0 i s1 n s2 u s3 r s4 a s5
        = (s0 ++ (fieldOpen "id" ++ (i ++ (fieldClose "id" ++ s1))))
            ++ (fieldOpen "name" ++ (n ++ (fieldClose "name"
            ++ (s2 ++ (fieldOpen "url" ++ (u ++ (fieldClose "url"
            ++ (s3 ++ (fieldOpen "reason" ++ (r ++ (fieldClose "reason"
            ++ (s4 ++ (fieldOpen "agreed_text" ++ (a ++ (fieldClose "agreed_text"
            ++ s5))))))))))))))) := by
      simp [updateBody, List.append_assoc]
    rw [hd]
    refine extractField_resolve "name" _ _ _ ?_ ?_
    · repeat
        first
          | exact cleanPrefix_headLt _ (by rfl) _ (by assumption)
          | apply cleanPrefix_append
          | decide
    · exact cleanPrefix_headLt _ (by rfl) _ hn
  · have hd : updateBody s0 i s1 n s2 u s3 r s4 a s5
        = (s0 ++ (fieldOpen "id" ++ (i ++ (fieldClose "id"
            ++ (s1 ++ (fieldOpen "name" ++ (n ++ (fieldClose "name" ++ s2))))))))
            ++ (fieldOpen "url" ++ (u ++ (fieldClose "url"
            ++ (s3 ++ (fieldOpen "reason" ++ (r ++ (fieldClose "reason"
            ++ (s4 ++ (fieldOpen "agreed_text" ++ (a ++ (fieldClose "agreed_text"
            ++ s5))))))))))) := by
      simp [updateBody, List.append_assoc]
    rw [hd]
    refine extractField_resolve "url" _ _ _ ?_ ?_
    · repeat
        first
          | exact cleanPrefix_headLt _ (by rfl) _ (by assumption)
          | apply cleanPrefix_append
          | decide
    · exact cleanPrefix_headLt _ (by rfl) _ hu
  · have hd : updateBody s0 i s1 n s2 u s3 r s4 a s5
        = (s0 ++ (fieldOpen "id" ++ (i ++ (fieldClose "id"
            ++ (s1 ++ (fieldOpen "name" ++ (n ++ (fieldClose "name"
            ++ (s2 ++ (fieldOpen "url" ++ (u ++ (fieldClose "url" ++ s3))))))))))))
            ++ (fieldOpen "reason" ++ (r ++ (fieldClose "reason"
            ++ (s4 ++ (fieldOpen "agreed_text" ++ (a ++ (fieldClose "agreed_text"
            ++ s5))))))) := by
      simp [updateBody, List.append_assoc]
    rw [hd]
    refine extractField_resolve "reason" _ _ _ ?_ ?_
    · repeat
        first
          | exact cleanPrefix_headLt _ (by rfl) _ (by assumption)
          | apply cleanPrefix_append
          | decide
    · exact cleanPrefix_headLt _ (by rfl) _ hr
  · have hd : updateBody s0 i s1 n s2 u s3 r s4 a s5
        = (s0 ++ (fieldOpen "id" ++ (i ++ (fieldClose "id"
            ++ (s1 ++ (fieldOpen "name" ++ (n ++ (fieldClose "name"
            ++ (s2 ++ (fieldOpen "url" ++ (u ++ (fieldClose "url"
            ++ (s3 ++ (fieldOpen "reason" ++ (r ++ (fieldClose "reason" ++ s4))))))))))))))))
            ++ (fieldOpen "agreed_text" ++ (a ++ (fieldClose "agreed_text" ++ s5))) := by
      simp [updateBody, List.append_assoc]
    rw [hd]
    refine extractField_resolve "agreed_text" _ _ _ ?_ ?_
    · repeat
        first
          | exact cleanPrefix_headLt _ (by rfl) _ (by assumption)
          | apply cleanPrefix_append
          | decide
    · exact cleanPrefix_headLt _ (by rfl) _ ha

/-- The save closing delimiter matches nowhere inside a well-formed save
body. -/
theorem cleanPrefix_closeSave_saveBody (s0 n s1 u s2 r s3 a s4 : Text)
    (h0 : ltFree s0 = true) (hn : ltFree n = true) (h1 : ltFree s1 = true)
    (hu : ltFree u = true) (h2 : ltFree s2 = true) (hr : ltFree r = true)
    (h3 : ltFree s3 = true) (ha : ltFree a = true) (h4 : ltFree s4 = true) :
    cleanPrefix ciEq closeSave (saveBody s0 n s1 u s2 r s3 a s4) = true := by
  unfold saveBody
  repeat
    first
      | exact cleanPrefix_headLt _ (by rfl) _ (by assumption)
      | apply cleanPrefix_append
      | decide

/-- The update closing delimiter matches nowhere inside a well-formed
update body. -/
theorem cleanPrefix_closeUpdate_updateBody (s0 i s1 n s2 u s3 r s4 a s5 : Text)
    (h0 : ltFree s0 = true) (hi : ltFree i = true) (h1 : ltFree s1 = true)
    (hn : ltFree n = true) (h2 : ltFree s2 = true) (hu : ltFree u = true)
    (h3 : ltFree s3 = true) (hr : ltFree r = true) (h4 : ltFree s4 = true)
    (ha : ltFree a = true) (h5 : ltFree s5 = true) :
    cleanPrefix ciEq closeUpdate (updateBody s0 i s1 n s2 u s3 r s4 a s5) = true := by
  unfold updateBody
  repeat
    first
      | exact cleanPrefix_headLt _ (by rfl) _ (by assumption)
      | apply cleanPrefix_append
      | decide

theorem parse_save_complete (st : Store) (now pre s0 n s1 u s2 r s3 a s4 post : Text)
    (hpre : ltFree pre = true)
    (h0 : ltFree s0 = true) (hn : ltFree n = true) (h1 : ltFree s1 = true)
    (hu : ltFree u = true) (h2 : ltFree s2 = true) (hr : ltFree r = true)
    (h3 : ltFree s3 = true) (ha : ltFree a = true) (h4 : ltFree s4 = true)
    (hpost : ltFree post = true)
    (hn' : (pyStrip n).isEmpty = false) (hu' : (pyStrip u).isEmpty = false)
    (hr' : (pyStrip r).isEmpty = false) (ha' : (pyStrip a).isEmpty = false) :
    _parse_save_tag st now (pre ++ (saveBlockText s0 n s1 u s2 r s3 a s4 ++ post))
      = ((pyStrip (pre ++ post),
          some { id := st.nextId, submitter_name := pyStrip n, url := pyStrip u,
                 reason := pyStrip r, agreed_text := pyStrip a,
                 created_at := now, done := false }),
         { items := st.items
             ++ [{ id := st.nextId, submitter_name := pyStrip n, url := pyStrip u,
                   reason := pyStrip r, agreed_text := pyStrip a,
                   created_at := now, done := false }],
           nextId := st.nextId + 1 }) := by
  have htext : pre ++ (saveBlockText s0 n s1 u s2 r s3 a s4 ++ post)
      = pre ++ (openSave ++ (saveBody s0 n s1 u s2 r s3 a s4 ++ (closeSave ++ post))) := by
    simp [saveBlockText, List.append_assoc]
  rw [htext]
  have hcpre : cleanPrefix ciEq openSave pre = true :=
    cleanPrefix_headLt _ (by rfl) _ hpre
  have hcbody : cleanPrefix ciEq closeSave (saveBody s0 n s1 u s2 r s3 a s4) = true :=
    cleanPrefix_closeSave_saveBody s0 n s1 u s2 r s3 a s4 h0 hn h1 hu h2 hr h3 ha h4
  have hfb := findBlock_resolve openSave closeSave (by decide) (by decide)
    pre (saveBody s0 n s1 u s2 r s3 a s4) post hcpre hcbody
  have hsb := stripBlocks_single openSave closeSave (by rfl) (by decide)
    pre (saveBody s0 n s1 u s2 r s3 a s4) post hcpre hcbody hpost
  obtain ⟨e1, e2, e3, e4⟩ := saveBody_extracts s0 n s1 u s2 r s3 a s4
    h0 hn h1 hu h2 hr h3 ha h4
  unfold _parse_save_tag
  simp only [hfb, e1, e2, e3, e4, hn', hu', hr', ha', Bool.or_self, Bool.or_false,
    Bool.false_eq_true, if_false, hsb]
  unfold save_news_item
  simp only [pyStrip_idem]

/-- C1 counterexample: an input holding a well-formed save block with all
four fields non-empty, followed by a stray closing delimiter.  The save
happens and the record is correct, but the returned cleaned text still
contains the closing delimiter `</SAVE_ITEM>` — `pattern.sub` removes
matched pairs only, so the claim's "no occurrence of the block
delimiters" fails. -/
theorem save_extraction_counterexample :
    _parse_save_tag { items := [], nextId := 1 } "T".data
        ("<SAVE_ITEM><name>n</name><url>u</url><reason>r</reason><agreed_text>a</agreed_text></SAVE_ITEM> tail </SAVE_ITEM>").data
      = (("tail </SAVE_ITEM>".data,
          some { id := 1, submitter_name := "n".data, url := "u".data,
                 reason := "r".data, agreed_text := "a".data,
                 created_at := "T".data, done := false }),
         { items := [{ id := 1, submitter_name := "n".data, url := "u".data,
                       reason := "r".data, agreed_text := "a".data,
                       created_at := "T".data, done := false }], nextId := 2 })
    ∧ containsLit closeSave "tail </SAVE_ITEM>".data = true := by
  constructor
  · rfl
  · decide

/-- C1 amended: for every input decomposing as `'<'`-free text around a
well-formed save block (arbitrary `'<'`-free separators inside, four
fields non-empty after trimming), the save extraction inserts and
returns a record whose four content fields are exactly the trimmed field
values, and the returned cleaned text — the stripped surroundings —
contains no occurrence of either block delimiter.  (Without the
`'<'`-free restriction stray or spliced delimiters can survive, see the
counterexample.) -/
theorem save_extraction_spec (st : Store) (now pre s0 n s1 u s2 r s3 a s4 post : Text)
    (hpre : ltFree pre = true)
    (h0 : ltFree s0 = true) (hn : ltFree n = true) (h1 : ltFree s1 = true)
    (hu : ltFree u = true) (h2 : ltFree s2 = true) (hr : ltFree r = true)
    (h3 : ltFree s3 = true) (ha : ltFree a = true) (h4 : ltFree s4 = true)
    (hpost : ltFree post = true)
    (hn' : (pyStrip n).isEmpty = false) (hu' : (pyStrip u).isEmpty = false)
    (hr' : (pyStrip r).isEmpty = false) (ha' : (pyStrip a).isEmpty = false) :
    _parse_save_tag st now (pre ++ (saveBlockText s0 n s1 u s2 r s3 a s4 ++ post))
      = ((pyStrip (pre ++ post),
          some { id := st.nextId, submitter_name := pyStrip n, url := pyStrip u,
                 reason := pyStrip r, agreed_text := pyStrip a,
                 created_at := now, done := false }),
         { items := st.items
             ++ [{ id := st.nextId, submitter_name := pyStrip n, url := pyStrip u,
                   reason := pyStrip r, agreed_text := pyStrip a,
                   created_at := now, done := false }],
           nextId := st.nextId + 1 })
    ∧ containsLit openSave (pyStrip (pre ++ post)) = false
    ∧ containsLit closeSave (pyStrip (pre ++ post)) = false := by
  refine ⟨parse_save_complete st now pre s0 n s1 u s2 r s3 a s4 post hpre h0 hn h1 hu
    h2 hr h3 ha h4 hpost hn' hu' hr' ha', ?_, ?_⟩
  · exact containsLit_false_of_ltFree openSave (by rfl) _
      (ltFree_pyStrip _ (ltFree_append pre post hpre hpost))
  · exact containsLit_false_of_ltFree closeSave (by rfl) _
      (ltFree_pyStrip _ (ltFree_append pre post hpre hpost))

/-- C1 witness: a concrete well-formed save block with newline
separators, surrounded by plain text, extracts and saves exactly its
four fields. -/
theorem save_extraction_spec_witness :
    ltFree "x ".data = true ∧ ltFree "\n".data = true ∧ ltFree "n".data = true
    ∧ ltFree "u".data = true ∧ ltFree "r".data = true ∧ ltFree "a".data = true
    ∧ ltFree " y".data = true
    ∧ (pyStrip "n".data).isEmpty = false ∧ (pyStrip "u".data).isEmpty = false
    ∧ (pyStrip "r".data).isEmpty = false ∧ (pyStrip "a".data).isEmpty = false
    ∧ (_parse_save_tag { items := [], nextId := 1 } "T".data
          ("x ".data ++ (saveBlockText "\n".data "n".data "\n".data "u".data "\n".data
              "r".data "\n".data "a".data "\n".data ++ " y".data))
        = ((pyStrip ("x ".data ++ " y".data),
            some { id := 1, submitter_name := pyStrip "n".data, url := pyStrip "u".data,
                   reason := pyStrip "r".data, agreed_text := pyStrip "a".data,
                   created_at := "T".data, done := false }),
           { items := []
               ++ [{ id := 1, submitter_name := pyStrip "n".data, url := pyStrip "u".data,
                     reason := pyStrip "r".data, agreed_text := pyStrip "a".data,
                     created_at := "T".data, done := false }],
             nextId := 2 })
        ∧ containsLit openSave (pyStrip ("x ".data ++ " y".data)) = false
        ∧ containsLit closeSave (pyStrip ("x ".data ++ " y".data)) = false) :=
  ⟨rfl, rfl, rfl, rfl, rfl, rfl, rfl, rfl, rfl, rfl, rfl,
   save_extraction_spec { items := [], nextId := 1 } "T".data "x ".data "\n".data
     "n".data "\n".data "u".data "\n".data "r".data "\n".data "a".data "\n".data
     " y".data rfl rfl rfl rfl rfl rfl rfl rfl rfl rfl rfl rfl rfl rfl rfl⟩

/-- C2 counterexample: a save block missing its url/reason/agreed_text
fields is discarded without a save, but a stray closing delimiter after
the block survives into the returned text, so "the block delimiters are
absent from the returned text" fails. -/
theorem parse_incomplete_counterexample :
    _parse_save_tag { items := [], nextId := 1 } "T".data
        "<SAVE_ITEM><name>x</name></SAVE_ITEM> x </SAVE_ITEM>".data
      = (("x </SAVE_ITEM>".data, none), { items := [], nextId := 1 })
    ∧ containsLit closeSave "x </SAVE_ITEM>".data = true := by
  constructor
  · rfl
  · decide

/-- C2 amended: for save/update blocks with `'<'`-free surroundings, a
block with a missing-or-empty required sub-field — and an update block
whose id field does not parse as an integer — causes no store mutation,
returns no extraction result, and the returned text is the stripped
surroundings, free of all block delimiters.  (A stray delimiter in the
surroundings can survive, hence the `'<'`-free restriction; see the
counterexample.) -/
theorem parse_incomplete_spec (st : Store) (now pre body post : Text)
    (s0 i s1 n s2 u s3 r s4 a s5 : Text)
    (hpre : ltFree pre = true) (hpost : ltFree post = true)
    (hbodyS : cleanPrefix ciEq closeSave body = true)
    (hbodyU : cleanPrefix ciEq closeUpdate body = true)
    (hmissS : ((extractField "name" body).isEmpty || (extractField "url" body).isEmpty
        || (extractField "reason" body).isEmpty
        || (extractField "agreed_text" body).isEmpty) = true)
    (hmissU : ((extractField "id" body).isEmpty || (extractField "name" body).isEmpty
        || (extractField "url" body).isEmpty || (extractField "reason" body).isEmpty
        || (extractField "agreed_text" body).isEmpty) = true)
    (h0 : ltFree s0 = true) (hi : ltFree i = true) (h1 : ltFree s1 = true)
    (hn : ltFree n = true) (h2 : ltFree s2 = true) (hu : ltFree u = true)
    (h3 : ltFree s3 = true) (hr : ltFree r = true) (h4 : ltFree s4 = true)
    (ha : ltFree a = true) (h5 : ltFree s5 = true)
    (hi' : (pyStrip i).isEmpty = false) (hn' : (pyStrip n).isEmpty = false)
    (hu' : (pyStrip u).isEmpty = false) (hr' : (pyStrip r).isEmpty = false)
    (ha' : (pyStrip a).isEmpty = false)
    (hint : pyInt (pyStrip i) = none) :
    _parse_save_tag st now (pre ++ (openSave ++ (body ++ (closeSave ++ post))))
        = ((pyStrip (pre ++ post), none), st)
    ∧ _parse_update_tag st (pre ++ (openUpdate ++ (body ++ (closeUpdate ++ post))))
        = .ok ((pyStrip (pre ++ post), none), st)
    ∧ _parse_update_tag st (pre ++ (updateBlockText s0 i s1 n s2 u s3 r s4 a s5 ++ post))
        = .ok ((pyStrip (pre ++ post), none), st)
    ∧ containsLit openSave (pyStrip (pre ++ post)) = false
    ∧ containsLit closeSave (pyStrip (pre ++ post)) = false
    ∧ containsLit openUpdate (pyStrip (pre ++ post)) = false
    ∧ containsLit closeUpdate (pyStrip (pre ++ post)) = false := by
  have hfree := ltFree_pyStrip _ (ltFree_append pre post hpre hpost)
  refine ⟨?_, ?_, ?_, ?_, ?_, ?_, ?_⟩
  · have hfb := findBlock_resolve openSave closeSave (by decide) (by decide)
      pre body post (cleanPrefix_headLt _ (by rfl) _ hpre) hbodyS
    have hsb := stripBlocks_single openSave closeSave (by rfl) (by decide)
      pre body post (cleanPrefix_headLt _ (by rfl) _ hpre) hbodyS hpost
    unfold _parse_save_tag
    simp only [hfb, hsb]
    simp only [hmissS, if_true]
  · have hfb := findBlock_resolve openUpdate closeUpdate (by decide) (by decide)
      pre body post (cleanPrefix_headLt _ (by rfl) _ hpre) hbodyU
    have hsb := stripBlocks_single openUpdate closeUpdate (by rfl) (by decide)
      pre body post (cleanPrefix_headLt _ (by rfl) _ hpre) hbodyU hpost
    unfold _parse_update_tag
    simp only [hfb, hsb]
    simp only [hmissU, if_true]
  · have htext : pre ++ (updateBlockText s0 i s1 n s2 u s3 r s4 a s5 ++ post)
        = pre ++ (openUpdate ++ (updateBody s0 i s1 n s2 u s3 r s4 a s5
            ++ (closeUpdate ++ post))) := by
      simp [updateBlockText, List.append_assoc]
    rw [htext]
    have hcbody := cleanPrefix_closeUpdate_updateBody s0 i s1 n s2 u s3 r s4 a s5
      h0 hi h1 hn h2 hu h3 hr h4 ha h5
    have hfb := findBlock_resolve openUpdate closeUpdate (by decide) (by decide)
      pre (updateBody s0 i s1 n s2 u s3 r s4 a s5) post
      (cleanPrefix_headLt _ (by rfl) _ hpre) hcbody
    have hsb := stripBlocks_single openUpdate closeUpdate (by rfl) (by decide)
      pre (updateBody s0 i s1 n s2 u s3 r s4 a s5) post
      (cleanPrefix_headLt _ (by rfl) _ hpre) hcbody hpost
    obtain ⟨e1, e2, e3, e4, e5⟩ := updateBody_extracts s0 i s1 n s2 u s3 r s4 a s5
      h0 hi h1 hn h2 hu h3 hr h4 ha h5
    unfold _parse_update_tag
    simp only [hfb, e1, e2, e3, e4, e5, hi', hn', hu', hr', ha', Bool.or_self,
      Bool.or_false, Bool.false_eq_true, if_false, hint, hsb]
  · exact containsLit_false_of_ltFree openSave (by rfl) _ hfree
  · exact containsLit_false_of_ltFree closeSave (by rfl) _ hfree
  · exact containsLit_false_of_ltFree openUpdate (by rfl) _ hfree
  · exact containsLit_false_of_ltFree closeUpdate (by rfl) _ hfree

/-- C2 witness: a concrete incomplete block (only a name field) for both
variants, and a concrete update block with the non-numeric id `abc`. -/
theorem parse_incomplete_spec_witness :
    ltFree "p ".data = true
    ∧ ltFree " q".data = true
    ∧ cleanPrefix ciEq closeSave "<name>x</name>".data = true
    ∧ cleanPrefix ciEq closeUpdate "<name>x</name>".data = true
    ∧ ((extractField "name" "<name>x</name>".data).isEmpty || (extractField "url" "<name>x</name>".data).isEmpty || (extractField "reason" "<name>x</name>".data).isEmpty || (extractField "agreed_text" "<name>x</name>".data).isEmpty) = true
    ∧ ((extractField "id" "<name>x</name>".data).isEmpty || (extractField "name" "<name>x</name>".data).isEmpty || (extractField "url" "<name>x</name>".data).isEmpty || (extractField "reason" "<name>x</name>".data).isEmpty || (extractField "agreed_text" "<name>x</name>".data).isEmpty) = true
    ∧ ltFree "\n".data = true
    ∧ ltFree "abc".data = true
    ∧ ltFree "n".data = true
    ∧ ltFree "u".data = true
    ∧ ltFree "r".data = true
    ∧ ltFree "a".data = true
    ∧ (pyStrip "abc".data).isEmpty = false
    ∧ (pyStrip "n".data).isEmpty = false
    ∧ (pyStrip "u".data).isEmpty = false
    ∧ (pyStrip "r".data).isEmpty = false
    ∧ (pyStrip "a".data).isEmpty = false
    ∧ pyInt (pyStrip "abc".data) = none
    ∧ (_parse_save_tag { items := [], nextId := 1 } "T".data
        ("p ".data ++ (openSave ++ ("<name>x</name>".data ++ (closeSave ++ " q".data))))
        = ((pyStrip ("p ".data ++ " q".data), none), { items := [], nextId := 1 })
    ∧ _parse_update_tag { items := [], nextId := 1 }
        ("p ".data ++ (openUpdate ++ ("<name>x</name>".data ++ (closeUpdate ++ " q".data))))
        = .ok ((pyStrip ("p ".data ++ " q".data), none), { items := [], nextId := 1 })
    ∧ _parse_update_tag { items := [], nextId := 1 }
        ("p ".data ++ (updateBlockText "\n".data "abc".data "\n".data "n".data "\n".data
            "u".data "\n".data "r".data "\n".data "a".data "\n".data ++ " q".data))
        = .ok ((pyStrip ("p ".data ++ " q".data), none), { items := [], nextId := 1 })
    ∧ containsLit openSave (pyStrip ("p ".data ++ " q".data)) = false
    ∧ containsLit closeSave (pyStrip ("p ".data ++ " q".data)) = false
    ∧ containsLit openUpdate (pyStrip ("p ".data ++ " q".data)) = false
    ∧ containsLit closeUpdate (pyStrip ("p ".data ++ " q".data)) = false) :=
  ⟨rfl, rfl, rfl, rfl, rfl, rfl, rfl, rfl, rfl, rfl, rfl, rfl, rfl, rfl, rfl, rfl, rfl, rfl,
   parse_incomplete_spec { items := [], nextId := 1 } "T".data "p ".data
     "<name>x</name>".data " q".data "\n".data "abc".data "\n".data "n".data
     "\n".data "u".data "\n".data "r".data "\n".data "a".data "\n".data
     rfl rfl rfl rfl rfl rfl rfl rfl rfl rfl rfl rfl
     rfl rfl rfl rfl rfl rfl rfl rfl rfl rfl rfl⟩

/-- C5 counterexample: the claim says text before the first block —
including leading whitespace — is preserved unchanged, with only
trailing-whitespace normalization.  But the code applies `.strip()` to
the sub result, so the leading whitespace of `"  x "` is removed. -/
theorem strip_preserves_counterexample :
    _parse_save_tag { items := [], nextId := 1 } "T".data
        "  x <SAVE_ITEM>y</SAVE_ITEM>".data
      = (("x".data, none), { items := [], nextId := 1 }) := by
  rfl

/-- C5 amended: with two well-formed save blocks in `'<'`-free
surroundings, the stripping step removes exactly the matched block spans
— both delimiter pairs are stripped — and returns the surrounding text
verbatim except that leading as well as trailing whitespace of the
result is normalized away; the extraction acts on the data inside the
first match only. -/
theorem strip_spec (st : Store)
    (now pre s0 n s1 u s2 r s3 a s4 mid t0 n2 t1 u2 t2 r2 t3 a2 t4 post : Text)
    (hpre : ltFree pre = true)
    (h0 : ltFree s0 = true) (hn : ltFree n = true) (h1 : ltFree s1 = true)
    (hu : ltFree u = true) (h2 : ltFree s2 = true) (hr : ltFree r = true)
    (h3 : ltFree s3 = true) (ha : ltFree a = true) (h4 : ltFree s4 = true)
    (hmid : ltFree mid = true)
    (g0 : ltFree t0 = true) (gn : ltFree n2 = true) (g1 : ltFree t1 = true)
    (gu : ltFree u2 = true) (g2 : ltFree t2 = true) (gr : ltFree r2 = true)
    (g3 : ltFree t3 = true) (ga : ltFree a2 = true) (g4 : ltFree t4 = true)
    (hpost : ltFree post = true)
    (hn' : (pyStrip n).isEmpty = false) (hu' : (pyStrip u).isEmpty = false)
    (hr' : (pyStrip r).isEmpty = false) (ha' : (pyStrip a).isEmpty = false) :
    _parse_save_tag st now
        (pre ++ (saveBlockText s0 n s1 u s2 r s3 a s4
          ++ (mid ++ (saveBlockText t0 n2 t1 u2 t2 r2 t3 a2 t4 ++ post))))
      = ((pyStrip (pre ++ (mid ++ post)),
          some { id := st.nextId, submitter_name := pyStrip n, url := pyStrip u,
                 reason := pyStrip r, agreed_text := pyStrip a,
                 created_at := now, done := false }),
         { items := st.items
             ++ [{ id := st.nextId, submitter_name := pyStrip n, url := pyStrip u,
                   reason := pyStrip r, agreed_text := pyStrip a,
                   created_at := now, done := false }],
           nextId := st.nextId + 1 }) := by
  have htext : pre ++ (saveBlockText s0 n s1 u s2 r s3 a s4
          ++ (mid ++ (saveBlockText t0 n2 t1 u2 t2 r2 t3 a2 t4 ++ post)))
      = pre ++ (openSave ++ (saveBody s0 n s1 u s2 r s3 a s4 ++ (closeSave
          ++ (mid ++ (openSave ++ (saveBody t0 n2 t1 u2 t2 r2 t3 a2 t4
          ++ (closeSave ++ post))))))) := by
    simp [saveBlockText, List.append_assoc]
  rw [htext]
  have hcpre : cleanPrefix ciEq openSave pre = true :=
    cleanPrefix_headLt _ (by rfl) _ hpre
  have hcb1 : cleanPrefix ciEq closeSave (saveBody s0 n s1 u s2 r s3 a s4) = true :=
    cleanPrefix_closeSave_saveBody s0 n s1 u s2 r s3 a s4 h0 hn h1 hu h2 hr h3 ha h4
  have hcb2 : cleanPrefix ciEq closeSave (saveBody t0 n2 t1 u2 t2 r2 t3 a2 t4) = true :=
    cleanPrefix_closeSave_saveBody t0 n2 t1 u2 t2 r2 t3 a2 t4 g0 gn g1 gu g2 gr g3 ga g4
  have hfb := findBlock_resolve openSave closeSave (by decide) (by decide)
    pre (saveBody s0 n s1 u s2 r s3 a s4)
    (mid ++ (openSave ++ (saveBody t0 n2 t1 u2 t2 r2 t3 a2 t4 ++ (closeSave ++ post))))
    hcpre hcb1
  have hsb := stripBlocks_two openSave closeSave (by rfl) (by decide)
    pre (saveBody s0 n s1 u s2 r s3 a s4) mid (saveBody t0 n2 t1 u2 t2 r2 t3 a2 t4) post
    hcpre hcb1 hmid hcb2 hpost
  obtain ⟨e1, e2, e3, e4⟩ := saveBody_extracts s0 n s1 u s2 r s3 a s4
    h0 hn h1 hu h2 hr h3 ha h4
  unfold _parse_save_tag
  simp only [hfb, e1, e2, e3, e4, hn', hu', hr', ha', Bool.or_self, Bool.or_false,
    Bool.false_eq_true, if_false, hsb]
  unfold save_news_item
  simp only [pyStrip_idem]

/-- C5 witness: two concrete save blocks with text before, between and
after them; the first block is saved, both blocks are stripped, and the
surroundings survive modulo the outer whitespace strip. -/
theorem strip_spec_witness :
    ltFree "x ".data = true
    ∧ ltFree "\n".data = true
    ∧ ltFree "n".data = true
    ∧ ltFree "u".data = true
    ∧ ltFree "r".data = true
    ∧ ltFree "a".data = true
    ∧ ltFree " m ".data = true
    ∧ ltFree "N".data = true
    ∧ ltFree "U".data = true
    ∧ ltFree "R".data = true
    ∧ ltFree "A".data = true
    ∧ ltFree " y".data = true
    ∧ (pyStrip "n".data).isEmpty = false
    ∧ (pyStrip "u".data).isEmpty = false
    ∧ (pyStrip "r".data).isEmpty = false
    ∧ (pyStrip "a".data).isEmpty = false
    ∧ (_parse_save_tag { items := [], nextId := 1 } "T".data
        ("x ".data ++ (saveBlockText "\n".data "n".data "\n".data "u".data "\n".data
            "r".data "\n".data "a".data "\n".data
          ++ (" m ".data ++ (saveBlockText "\n".data "N".data "\n".data "U".data "\n".data
            "R".data "\n".data "A".data "\n".data ++ " y".data))))
      = ((pyStrip ("x ".data ++ (" m ".data ++ " y".data)),
          some { id := 1, submitter_name := pyStrip "n".data, url := pyStrip "u".data,
                 reason := pyStrip "r".data, agreed_text := pyStrip "a".data,
                 created_at := "T".data, done := false }),
         { items := []
             ++ [{ id := 1, submitter_name := pyStrip "n".data, url := pyStrip "u".data,
                   reason := pyStrip "r".data, agreed_text := pyStrip "a".data,
                   created_at := "T".data, done := false }],
           nextId := 2 })) :=
  ⟨rfl, rfl, rfl, rfl, rfl, rfl, rfl, rfl, rfl, rfl, rfl, rfl, rfl, rfl, rfl, rfl,
   strip_spec { items := [], nextId := 1 } "T".data "x ".data "\n".data "n".data "\n".data "u".data "\n".data
     "r".data "\n".data "a".data "\n".data " m ".data "\n".data "N".data "\n".data "U".data
     "\n".data "R".data "\n".data "A".data "\n".data " y".data
     rfl rfl rfl rfl rfl rfl rfl rfl rfl rfl rfl rfl rfl
     rfl rfl rfl rfl rfl rfl rfl rfl rfl rfl rfl rfl⟩

/-- When the save parser returns a record, the store was extended by
exactly that record. -/
theorem parse_save_some_shape (st : Store) (now t cleaned : Text) (item : NewsItem)
    (st' : Store) (h : _parse_save_tag st now t = ((cleaned, some item), st')) :
    st'.items = st.items ++ [item] := by
  unfold _parse_save_tag at h
  cases hfb : findBlock openSave closeSave t with
  | none =>
    simp only [hfb] at h
    exact absurd h (by simp)
  | some pmq =>
    obtain ⟨pre, block, post⟩ := pmq
    simp only [hfb] at h
    cases hcond : ((extractField "name" block).isEmpty || (extractField "url" block).isEmpty
        || (extractField "reason" block).isEmpty
        || (extractField "agreed_text" block).isEmpty) with
    | true =>
      simp only [hcond, if_true] at h
      exact absurd h (by simp)
    | false =>
      simp only [hcond, Bool.false_eq_true, if_false, save_news_item,
        Prod.mk.injEq, Option.some.injEq] at h
      obtain ⟨⟨hc, hi⟩, hs⟩ := h
      rw [← hs, ← hi]

/-- When the save parser returns no record, the store is untouched. -/
theorem parse_save_none_shape (st : Store) (now t cleaned : Text) (st' : Store)
    (h : _parse_save_tag st now t = ((cleaned, none), st')) : st' = st := by
  unfold _parse_save_tag at h
  cases hfb : findBlock openSave closeSave t with
  | none =>
    simp only [hfb] at h
    obtain ⟨_, hs⟩ := Prod.mk.injEq .. ▸ h
    exact hs.symm
  | some pmq =>
    obtain ⟨pre, block, post⟩ := pmq
    simp only [hfb] at h
    cases hcond : ((extractField "name" block).isEmpty || (extractField "url" block).isEmpty
        || (extractField "reason" block).isEmpty
        || (extractField "agreed_text" block).isEmpty) with
    | true =>
      simp only [hcond, if_true] at h
      obtain ⟨_, hs⟩ := Prod.mk.injEq .. ▸ h
      exact hs.symm
    | false =>
      simp only [hcond, Bool.false_eq_true, if_false, save_news_item] at h
      exact absurd h (by simp)

/-- C10 amended: when the model call fails on a turn whose session id
already exists, the turn aborts with the distinguishable upstream-failure
signal and the session store and item store are exactly as before the
turn; only the rate-limit increment remains.  (For an unknown session
id the fetch-or-create insertion does persist — see the
counterexample.) -/
theorem chat_upstream_failure_spec (w : World) (ip : Nat) (sid : SessionId)
    (message : Text) (now : Int) (dbNow : Text)
    (hrl : (_check_rate_limit w.rate ip now).1 = true)
    (hmsg : (pyStrip message).isEmpty = false)
    (hsid : dictContains sid w.sessions = true) :
    chat_endpoint w ip sid message none now dbNow
      = (.error .upstream,
         { sessions := w.sessions, rate := (_check_rate_limit w.rate ip now).2,
           store := w.store }) := by
  unfold chat_endpoint _get_or_create_session
  simp only [hrl, Bool.not_true, Bool.false_eq_true, if_false, hsid, if_true,
    hmsg]

/-- C10 counterexample: a turn with an unknown session id whose model
call fails still commits the fetch-or-create mutation: the session store
gains an empty history for the new id, so the store is not left as it
was before the turn. -/
theorem chat_upstream_failure_counterexample :
    chat_endpoint { sessions := [], rate := [], store := { items := [], nextId := 1 } }
        0 7 "hi".data none 0 []
      = (.error .upstream,
         { sessions := [(7, [])], rate := [(0, (1, 0))],
           store := { items := [], nextId := 1 } })
    ∧ [(7, ([] : List Msg))] ≠ ([] : SessionsMap) := by
  constructor
  · rfl
  · decide

/-- C10 witness: a failing model call on an existing session leaves the
session and item stores untouched. -/
theorem chat_upstream_failure_spec_witness :
    (_check_rate_limit [] 0 0).1 = true
    ∧ (pyStrip "hi".data).isEmpty = false
    ∧ dictContains 3 [((3 : SessionId), ([] : List Msg))] = true
    ∧ chat_endpoint
        { sessions := [(3, [])], rate := [], store := { items := [], nextId := 1 } }
        0 3 "hi".data none 0 []
        = (.error .upstream,
           { sessions := [(3, [])], rate := (_check_rate_limit [] 0 0).2,
             store := { items := [], nextId := 1 } }) :=
  ⟨by decide, by decide, by decide,
   chat_upstream_failure_spec
     { sessions := [(3, [])], rate := [], store := { items := [], nextId := 1 } }
     0 3 "hi".data 0 [] (by decide) (by decide) (by decide)⟩

/-- A successful update pass never changes the number of stored items. -/
theorem parse_update_ok_length (st : Store) (t c : Text) (o : Option NewsItem)
    (st' : Store) (h : _parse_update_tag st t = .ok ((c, o), st')) :
    st'.items.length = st.items.length := by
  unfold _parse_update_tag at h
  cases hfb : findBlock openUpdate closeUpdate t with
  | none =>
    simp only [hfb, Except.ok.injEq, Prod.mk.injEq] at h
    rw [← h.2]
  | some pmq =>
    obtain ⟨pre, block, post⟩ := pmq
    simp only [hfb] at h
    cases hcond : ((extractField "id" block).isEmpty || (extractField "name" block).isEmpty
        || (extractField "url" block).isEmpty || (extractField "reason" block).isEmpty
        || (extractField "agreed_text" block).isEmpty) with
    | true =>
      simp only [hcond, if_true, Except.ok.injEq, Prod.mk.injEq] at h
      rw [← h.2]
    | false =>
      simp only [hcond, Bool.false_eq_true, if_false] at h
      cases hint : pyInt (extractField "id" block) with
      | none =>
        simp only [hint, Except.ok.injEq, Prod.mk.injEq] at h
        rw [← h.2]
      | some item_id =>
        simp only [hint] at h
        unfold update_news_item at h
        cases hfind : (st.items.map (fun i =>
            if (i.id : Int) = item_id then
              { i with
                submitter_name := pyStrip (extractField "name" block)
                url := pyStrip (extractField "url" block)
                reason := pyStrip (extractField "reason" block)
                agreed_text := pyStrip (extractField "agreed_text" block) }
            else i)).find? (fun i => (i.id : Int) == item_id) with
        | none =>
          simp only [hfind] at h
          exact absurd h (by simp)
        | some row =>
          simp only [hfind, Except.ok.injEq, Prod.mk.injEq] at h
          rw [← h.2]
          simp

/-- Rewriting the last message's content rewrites exactly the last
element. -/
theorem setLastContent_concat (c : Text) :
    ∀ (l : List Msg) (m : Msg),
      setLastContent c (l ++ [m]) = l ++ [{ m with content := c }] := by
  intro l
  induction l with
  | nil => intro m; rfl
  | cons x xs ih =>
    intro m
    cases hxs : xs ++ [m] with
    | nil => exact absurd hxs (by simp)
    | cons y ys =>
      have hstep : setLastContent c (x :: (y :: ys)) = x :: setLastContent c (y :: ys) := rfl
      calc setLastContent c ((x :: xs) ++ [m])
          = setLastContent c (x :: (y :: ys)) := by rw [List.cons_append, hxs]
        _ = x :: setLastContent c (y :: ys) := hstep
        _ = x :: setLastContent c (xs ++ [m]) := by rw [← hxs]
        _ = x :: (xs ++ [{ m with content := c }]) := by rw [ih m]
        _ = (x :: xs) ++ [{ m with content := c }] := by rw [List.cons_append]

/-- Symbolic evaluation of a successful-model chat turn past the rate
and emptiness guards. -/
theorem chat_endpoint_success_eval (w : World) (ip : Nat) (sid : SessionId)
    (message raw : Text) (now : Int) (dbNow : Text)
    (hrl : (_check_rate_limit w.rate ip now).1 = true)
    (hmsg : (pyStrip message).isEmpty = false) :
    chat_endpoint w ip sid message (some raw) now dbNow
      = (let gs := _get_or_create_session w.sessions sid
         let updatedHistory := _trim_history gs.1
             ++ [{ role := "user".data,
                   content := if _wants_feed (pyStrip message) then
                       pyStrip message ++ systemNote ++ _build_feed_context w.store
                     else pyStrip message },
                 { role := "assistant".data, content := raw }]
         let ps := _parse_save_tag w.store dbNow (strip_dashes raw)
         match ps.1.2 with
         | some savedItem =>
           (.ok (ps.1.1, some savedItem),
            { sessions := dictSet sid (setLastContent ps.1.1 updatedHistory) gs.2,
              rate := (_check_rate_limit w.rate ip now).2, store := ps.2 })
         | none =>
           match _parse_update_tag ps.2 ps.1.1 with
           | .error _ =>
             (.error .internal,
              { sessions := gs.2, rate := (_check_rate_limit w.rate ip now).2,
                store := ps.2 })
           | .ok ((cleaned, savedItem), st') =>
             (.ok (cleaned, savedItem),
              { sessions := dictSet sid (setLastContent cleaned updatedHistory) gs.2,
                rate := (_check_rate_limit w.rate ip now).2, store := st' })) := by
  unfold chat_endpoint llm_chat
  simp only [hrl, Bool.not_true, Bool.false_eq_true, if_false, hmsg]

/-- C3 amended: on every chat turn, the save extractor runs first and its
result is returned with its store mutation alone (one inserted record,
existing rows untouched), the update extractor runs only when the save
variant found nothing (and then never changes the item count), and the
assistant message persisted into the session history is exactly the
cleaned text returned to the caller.  The persisted text is the
block-stripped text of the variant(s) that ran; when the save variant
succeeds, update-block markup is not stripped (see counterexample). -/
theorem chat_orchestration_spec (w : World) (ip : Nat) (sid : SessionId)
    (message raw : Text) (now : Int) (dbNow : Text)
    (hrl : (_check_rate_limit w.rate ip now).1 = true)
    (hmsg : (pyStrip message).isEmpty = false) :
    (∀ cleaned item st',
        _parse_save_tag w.store dbNow (strip_dashes raw) = ((cleaned, some item), st') →
        (chat_endpoint w ip sid message (some raw) now dbNow).1 = .ok (cleaned, some item)
        ∧ (chat_endpoint w ip sid message (some raw) now dbNow).2.store = st'
        ∧ st'.items = w.store.items ++ [item])
    ∧ (∀ cleaned st',
        _parse_save_tag w.store dbNow (strip_dashes raw) = ((cleaned, none), st') →
        (chat_endpoint w ip sid message (some raw) now dbNow).2.store.items.length
          = w.store.items.length)
    ∧ (∀ resp s',
        (chat_endpoint w ip sid message (some raw) now dbNow).1 = .ok (resp, s') →
        ∃ hist,
          dictGet sid (chat_endpoint w ip sid message (some raw) now dbNow).2.sessions
            = some hist
          ∧ ∃ m, hist.getLast? = some m ∧ m.role = "assistant".data
              ∧ m.content = resp) := by
  have he := chat_endpoint_success_eval w ip sid message raw now dbNow hrl hmsg
  refine ⟨?_, ?_, ?_⟩
  · intro cleaned item st' hps
    rw [he]
    simp only [hps]
    exact ⟨trivial, trivial, parse_save_some_shape w.store dbNow _ cleaned item st' hps⟩
  · intro cleaned st' hps
    rw [he]
    simp only [hps]
    have hw : st' = w.store := parse_save_none_shape w.store dbNow _ cleaned st' hps
    cases hup : _parse_update_tag st' cleaned with
    | error e => simp only [hw]
    | ok res =>
      obtain ⟨⟨c2, o2⟩, st2⟩ := res
      simp only
      rw [parse_update_ok_length st' cleaned c2 o2 st2 hup, hw]
  · intro resp s' hr
    rw [he] at hr ⊢
    cases hps : _parse_save_tag w.store dbNow (strip_dashes raw) with
    | mk p1 st1 =>
      obtain ⟨cleaned1, saved1⟩ := p1
      simp only [hps] at hr ⊢
      cases saved1 with
      | some item =>
        simp only [Except.ok.injEq, Prod.mk.injEq] at hr
        obtain ⟨hresp, hs'⟩ := hr
        refine ⟨_, dictGet_dictSet_self sid _ _, ?_⟩
        have hassoc : _trim_history (_get_or_create_session w.sessions sid).1
              ++ [{ role := "user".data,
                    content := if _wants_feed (pyStrip message) then
                        pyStrip message ++ systemNote ++ _build_feed_context w.store
                      else pyStrip message },
                  { role := "assistant".data, content := raw }]
            = (_trim_history (_get_or_create_session w.sessions sid).1
                ++ [{ role := "user".data,
                      content := if _wants_feed (pyStrip message) then
                          pyStrip message ++ systemNote ++ _build_feed_context w.store
                        else pyStrip message }])
              ++ [{ role := "assistant".data, content := raw }] := by
          simp
        rw [hassoc, setLastContent_concat]
        refine ⟨_, List.getLast?_concat _, rfl, ?_⟩
        simp only [← hresp]
      | none =>
        cases hup : _parse_update_tag st1 cleaned1 with
        | error e =>
          simp only [hup] at hr
          exact absurd hr (by simp)
        | ok res =>
          obtain ⟨⟨c2, o2⟩, st2⟩ := res
          simp only [hup, Except.ok.injEq, Prod.mk.injEq] at hr
          obtain ⟨hresp, hs'⟩ := hr
          simp only [hup]
          refine ⟨_, dictGet_dictSet_self sid _ _, ?_⟩
          have hassoc : _trim_history (_get_or_create_session w.sessions sid).1
                ++ [{ role := "user".data,
                      content := if _wants_feed (pyStrip message) then
                          pyStrip message ++ systemNote ++ _build_feed_context w.store
                        else pyStrip message },
                    { role := "assistant".data, content := raw }]
              = (_trim_history (_get_or_create_session w.sessions sid).1
                  ++ [{ role := "user".data,
                        content := if _wants_feed (pyStrip message) then
                            pyStrip message ++ systemNote ++ _build_feed_context w.store
                          else pyStrip message }])
                ++ [{ role := "assistant".data, content := raw }] := by
            simp
          rw [hassoc, setLastContent_concat]
          refine ⟨_, List.getLast?_concat _, rfl, ?_⟩
          simp only [← hresp]

set_option maxRecDepth 8000 in
/-- C3 counterexample: a model output containing both a complete save
block and a complete update block.  The save variant wins and the update
extractor never runs, so the update block's raw markup survives into the
returned response and into the persisted session history — the claim
that persisted history never contains raw block markup fails. -/
theorem chat_orchestration_counterexample :
    (chat_endpoint { sessions := [], rate := [], store := { items := [], nextId := 1 } }
        0 5 "ok".data
        (some ("<SAVE_ITEM><name>n</name><url>u</url><reason>r</reason><agreed_text>a</agreed_text></SAVE_ITEM><UPDATE_ITEM><id>1</id><name>n2</name><url>u2</url><reason>r2</reason><agreed_text>a2</agreed_text></UPDATE_ITEM>").data)
        0 "T".data).1
      = .ok (("<UPDATE_ITEM><id>1</id><name>n2</name><url>u2</url><reason>r2</reason><agreed_text>a2</agreed_text></UPDATE_ITEM>").data,
          some { id := 1, submitter_name := "n".data, url := "u".data,
                 reason := "r".data, agreed_text := "a".data,
                 created_at := "T".data, done := false })
    ∧ dictGet 5 (chat_endpoint
          { sessions := [], rate := [], store := { items := [], nextId := 1 } }
          0 5 "ok".data
          (some ("<SAVE_ITEM><name>n</name><url>u</url><reason>r</reason><agreed_text>a</agreed_text></SAVE_ITEM><UPDATE_ITEM><id>1</id><name>n2</name><url>u2</url><reason>r2</reason><agreed_text>a2</agreed_text></UPDATE_ITEM>").data)
          0 "T".data).2.sessions
        = some [{ role := "user".data, content := "ok".data },
                { role := "assistant".data,
                  content := ("<UPDATE_ITEM><id>1</id><name>n2</name><url>u2</url><reason>r2</reason><agreed_text>a2</agreed_text></UPDATE_ITEM>").data }]
    ∧ containsLit openUpdate
        ("<UPDATE_ITEM><id>1</id><name>n2</name><url>u2</url><reason>r2</reason><agreed_text>a2</agreed_text></UPDATE_ITEM>").data
        = true := by
  refine ⟨?_, ?_, ?_⟩
  · rfl
  · rfl
  · decide

/-- C3 witness: the orchestration properties instantiated on a concrete
turn. -/
theorem chat_orchestration_spec_witness :
    (_check_rate_limit [] 0 0).1 = true
    ∧ (pyStrip "ok".data).isEmpty = false
    ∧ ((∀ cleaned item st',
          _parse_save_tag { items := [], nextId := 1 } "T".data
              (strip_dashes "no block here".data) = ((cleaned, some item), st') →
          (chat_endpoint { sessions := [], rate := [], store := { items := [], nextId := 1 } }
              0 9 "ok".data (some "no block here".data) 0 "T".data).1
            = .ok (cleaned, some item)
          ∧ (chat_endpoint { sessions := [], rate := [], store := { items := [], nextId := 1 } }
              0 9 "ok".data (some "no block here".data) 0 "T".data).2.store = st'
          ∧ st'.items = ({ items := [], nextId := 1 } : Store).items ++ [item])
      ∧ (∀ cleaned st',
          _parse_save_tag { items := [], nextId := 1 } "T".data
              (strip_dashes "no block here".data) = ((cleaned, none), st') →
          (chat_endpoint { sessions := [], rate := [], store := { items := [], nextId := 1 } }
              0 9 "ok".data (some "no block here".data) 0 "T".data).2.store.items.length
            = ({ items := [], nextId := 1 } : Store).items.length)
      ∧ (∀ resp s',
          (chat_endpoint { sessions := [], rate := [], store := { items := [], nextId := 1 } }
              0 9 "ok".data (some "no block here".data) 0 "T".data).1 = .ok (resp, s') →
          ∃ hist,
            dictGet 9 (chat_endpoint
                { sessions := [], rate := [], store := { items := [], nextId := 1 } }
                0 9 "ok".data (some "no block here".data) 0 "T".data).2.sessions
              = some hist
            ∧ ∃ m, hist.getLast? = some m ∧ m.role = "assistant".data
                ∧ m.content = resp)) :=
  ⟨by decide, by decide,
   chat_orchestration_spec
     { sessions := [], rate := [], store := { items := [], nextId := 1 } }
     0 9 "ok".data "no block here".data 0 "T".data (by decide) (by decide)⟩
